import Mathlib

/-!
# Verification of the `colour` LUT input/output subsystem

A shallow embedding, in Lean 4, of the Sony `.spi3d` codec
(`colour/io/luts/sony_spi3d.py`) and of the LUT dispatch layer
(`colour/io/luts/__init__.py`), together with proofs about them.

Python strings are embedded as `List Char`, Python floats as `ℚ`
(arithmetic on decimal tokens is exact at the granularity the codec
manipulates), Python exceptions as an explicit `Except` error type, and
the file system is abstracted: a reader takes the file's content next to
its path, a writer returns the content it would put on disk.
-/

namespace ColourSpec

/-- The whitespace characters recognised by Python's `str.strip` and
`str.split`: every character for which `str.isspace()` holds — the ASCII
whitespace `'\t'` to `'\r'` and `' '`, the separator controls 28 to 31,
and the Unicode whitespace code points 133 (next line), 160 (no-break
space), 5760 (ogham space mark), 8192 to 8202 (en quad through hair
space), 8232 (line separator), 8233 (paragraph separator), 8239 (narrow
no-break space), 8287 (medium mathematical space) and 12288 (ideographic
space). -/
def pySpace (c : Char) : Bool :=
  (9 ≤ c.toNat && c.toNat ≤ 13) || c.toNat = 32 ||
    (28 ≤ c.toNat && c.toNat ≤ 31) || c.toNat = 133 || c.toNat = 160 ||
    c.toNat = 5760 || (8192 ≤ c.toNat && c.toNat ≤ 8202) ||
    c.toNat = 8232 || c.toNat = 8233 || c.toNat = 8239 || c.toNat = 8287 ||
    c.toNat = 12288

/-- Decimal digit test, `'0'` to `'9'`. -/
def isDigitC (c : Char) : Bool :=
  48 ≤ c.toNat && c.toNat ≤ 57

/-- Left strip: drop leading whitespace, as Python's `str.lstrip`. -/
def stripLeft (s : List Char) : List Char :=
  s.dropWhile pySpace

/-- Python's `str.strip`: drop leading and trailing whitespace. -/
def pyStrip (s : List Char) : List Char :=
  ((stripLeft s).reverse.dropWhile pySpace).reverse

/-- Helper for `pySplit`: accumulates the current token (reversed). -/
def pySplitAux : List Char → List Char → List (List Char)
  | [], acc => if acc.isEmpty then [] else [acc.reverse]
  | c :: cs, acc =>
    if pySpace c then
      if acc.isEmpty then pySplitAux cs [] else acc.reverse :: pySplitAux cs []
    else
      pySplitAux cs (c :: acc)

/-- Python's `str.split()` with no argument: split on runs of whitespace,
dropping empty tokens. -/
def pySplit (s : List Char) : List (List Char) :=
  pySplitAux s []

/-- Split a character stream into lines at `'\n'` (the terminator itself is
dropped); reading a Python text file applies this after the
universal-newlines translation `translateNewlines`. -/
def splitLinesAux : List Char → List Char → List (List Char)
  | [], acc => [acc.reverse]
  | c :: cs, acc =>
    if c = '\n' then acc.reverse :: splitLinesAux cs []
    else splitLinesAux cs (c :: acc)

/-- All lines of a character stream, split at `'\n'`. -/
def splitLines (s : List Char) : List (List Char) :=
  splitLinesAux s []

/-- Python's universal-newlines translation for text-mode reading
(`open` with the default `newline=None`): each `'\r\n'` pair and each lone
`'\r'` becomes a single `'\n'`. The Boolean argument records whether the
previous character was a `'\r'` (whose `'\n'` was already emitted, so a
`'\n'` directly after it is dropped). -/
def translateNewlinesAux : Bool → List Char → List Char
  | _, [] => []
  | prevCR, c :: cs =>
    if c = '\n' then
      if prevCR then translateNewlinesAux false cs
      else '\n' :: translateNewlinesAux false cs
    else if c = '\r' then '\n' :: translateNewlinesAux true cs
    else c :: translateNewlinesAux false cs

/-- The universal-newlines translation of a whole file content. -/
def translateNewlines (s : List Char) : List Char :=
  translateNewlinesAux false s

/-- Decimal digit character for a value below ten. -/
def digitChar : ℕ → Char
  | 0 => '0' | 1 => '1' | 2 => '2' | 3 => '3' | 4 => '4'
  | 5 => '5' | 6 => '6' | 7 => '7' | 8 => '8' | _ => '9'

/-- Fuel-driven digit printer; the fuel only needs to exceed the number of
divisions by ten. -/
def natDigitsAux : ℕ → ℕ → List Char
  | 0, _ => []
  | fuel + 1, n =>
    if n < 10 then [digitChar n]
    else natDigitsAux fuel (n / 10) ++ [digitChar (n % 10)]

/-- Decimal digits of a natural number, most significant first; the
rendering `'{0}'.format(n)` and `'{0:d}'.format(n)` produce. -/
def natDigits (n : ℕ) : List Char := natDigitsAux (n + 1) n

/-- Rendering of an integer in decimal, as `'{0:d}'.format`. -/
def intDigits (z : ℤ) : List Char :=
  if z < 0 then '-' :: natDigits z.natAbs else natDigits z.toNat

/-- Numeric value of a list of decimal digit characters, most significant
first (leading zeros allowed). -/
def digitsVal (s : List Char) : ℕ :=
  s.foldl (fun a c => 10 * a + (c.toNat - 48)) 0

/-- The Python exceptions the embedded code can raise, each carrying its
message. -/
inductive PyError where
  | valueError (msg : String)
  | assertionError (msg : String)
  | keyError (msg : String)
  | typeError (msg : String)
  | indexError (msg : String)
deriving DecidableEq

/-- The message of a failed float conversion. -/
def floatErrMsg : String := "could not convert string to float"

/-- `float(token)` on an unsigned token in plain decimal notation:
digits, an optional fraction, at least one digit overall. -/
def parseUnsignedFloat (t : List Char) : Except PyError ℚ :=
  let ip := t.takeWhile isDigitC
  match t.dropWhile isDigitC with
  | [] =>
    if ip.isEmpty then .error (.valueError floatErrMsg)
    else .ok (digitsVal ip)
  | c :: fp =>
    if c = '.' then
      if fp.all isDigitC && !(ip.isEmpty && fp.isEmpty) then
        .ok ((digitsVal ip : ℚ) + (digitsVal fp : ℚ) / 10 ^ fp.length)
      else .error (.valueError floatErrMsg)
    else .error (.valueError floatErrMsg)

/-- `float(token)`: optional sign, then an unsigned decimal literal. -/
def parseFloat : List Char → Except PyError ℚ
  | [] => parseUnsignedFloat []
  | c :: rest =>
    if c = '-' then (parseUnsignedFloat rest).map (fun q => -q)
    else if c = '+' then parseUnsignedFloat rest
    else parseUnsignedFloat (c :: rest)

/-- `int(token)` on an unsigned token: a nonempty run of digits. -/
def parseIntUnsigned (t : List Char) : Except PyError ℤ :=
  if !t.isEmpty && t.all isDigitC then .ok (digitsVal t)
  else .error (.valueError "invalid literal for int() with base 10")

/-- `DEFAULT_INT_DTYPE(token)`: integer conversion of a string token,
optional sign then digits; a fractional literal is rejected. -/
def parseInt : List Char → Except PyError ℤ
  | [] => parseIntUnsigned []
  | c :: rest =>
    if c = '-' then (parseIntUnsigned rest).map Neg.neg
    else if c = '+' then parseIntUnsigned rest
    else parseIntUnsigned (c :: rest)

/-- Modelled from the spec: `colour.io.luts.common.parse_array` (its source
file is not among these sources) converts a sequence of string tokens into
an array of floats; data rows are whitespace-separated floats (section 4.2
of the specification). -/
def parse_array (ts : List (List Char)) : Except PyError (List ℚ) :=
  ts.mapM parseFloat

/-- The numpy integer cast `DEFAULT_INT_DTYPE(x)` of a float: truncation
toward zero (`Int.tdiv` is the toward-zero division, and a rational is
stored with a positive denominator). -/
def truncQ (q : ℚ) : ℤ :=
  q.num.tdiv q.den

/-- Floor of a rational, computably. -/
def floorQ (q : ℚ) : ℤ :=
  q.num / q.den

/-- Round-to-nearest (ties up) of a rational, computably. -/
def roundQ (x : ℚ) : ℤ :=
  floorQ (x + 1 / 2)

/-- A first-three-entries triple from a parsed array, used to store the
rows `tokens[:3]` and `tokens[3:]` of a data line. -/
def toTriple (l : List ℚ) : ℚ × ℚ × ℚ :=
  (l.getD 0 0, l.getD 1 0, l.getD 2 0)

/-- The in-memory `LUT3D` table model: display name, domain rows, samples
per axis, the `size ^ 3` samples in row-major order (last axis fastest),
and the ordered free-text comments. -/
structure LUT3D where
  name : String
  domain : List (List ℚ)
  size : ℕ
  table : List (ℚ × ℚ × ℚ)
  comments : List String
deriving DecidableEq

/-- The in-memory `LUT1D` table model (only its metadata matters here: the
SPI3D writer rejects it before looking at its samples). -/
structure LUT1D where
  name : String
  domain : List (List ℚ)
  size : ℕ
  table : List ℚ
  comments : List String
deriving DecidableEq

/-- A table of either variant, as a value passed to a codec. -/
inductive TableU where
  | l1 (l : LUT1D)
  | l3 (l : LUT3D)
deriving DecidableEq

/-- The domain rows of a table of either variant. -/
def TableU.domain : TableU → List (List ℚ)
  | .l1 l => l.domain
  | .l3 l => l.domain

/-- Modelled from the spec: `is_domain_explicit()` (the table model's source
file is not among these sources) is true iff the stored domain cannot be
described by a single (min, max) row pair, i.e. it has a row count other
than two (section 4.1 and glossary of the specification). -/
def TableU.is_domain_explicit (t : TableU) : Bool :=
  t.domain.length ≠ 2

/-- A value passed to a write codec: a single table or a `LUTSequence`. -/
inductive PyLUT where
  | table (t : TableU)
  | sequence (s : List TableU)
deriving DecidableEq

/-- `isinstance(LUT, LUTSequence)`. -/
def PyLUT.isSeq : PyLUT → Bool
  | .sequence _ => true
  | .table _ => false

/-- Modelled from the spec: `LUT3D.linear_table(size)` (the table model's
source file is not among these sources) produces the `size ^ 3` lattice of
uniformly spaced samples spanning the default domain `[[0,0,0],[1,1,1]]`,
each a 3-vector, in row-major order with the last axis varying fastest
(section 4.1 of the specification). -/
def LUT3D.linear_table (size : ℕ) : List (ℚ × ℚ × ℚ) :=
  (List.range size).flatMap fun i =>
    (List.range size).flatMap fun j =>
      (List.range size).map fun k : ℕ =>
        ((i : ℚ) / ((size : ℚ) - 1), (j : ℚ) / ((size : ℚ) - 1),
          (k : ℚ) / ((size : ℚ) - 1))

/-- `DEFAULT_INT_DTYPE(LUT3D.linear_table(size) * (size - 1))` reshaped to
rows of three: the index lattice that the reader validates against (line 90
of `sony_spi3d.py`) and that the writer re-derives (line 165). -/
def expectedIndexes (size : ℕ) : List (ℤ × ℤ × ℤ) :=
  (LUT3D.linear_table size).map fun v =>
    (truncQ (v.1 * ((size : ℚ) - 1)), truncQ (v.2.1 * ((size : ℚ) - 1)),
      truncQ (v.2.2 * ((size : ℚ) - 1)))

/-- The expected index lattice as the float array `np.array_equal` compares
the parsed index columns against. -/
def expectedIndexesQ (size : ℕ) : List (ℚ × ℚ × ℚ) :=
  (expectedIndexes size).map (fun v => ((v.1 : ℚ), (v.2.1 : ℚ), (v.2.2 : ℚ)))

/-- The message of the non-uniform-size assertion (line 81). -/
def nonUniformMsg : String := "Non-uniform \"LUT\" shape is unsupported!"

/-- The message of the index-lattice assertion (line 91). -/
def indexesMsg : String := "Indexes do not match expected \"LUT3D\" indexes!"

/-- The state of the reader's line loop: the running `size` (a numpy
integer parsed from the size line, default 2) and the accumulated index
rows, table rows and comments. -/
structure SpiScanState where
  size : ℤ
  indexes : List (ℚ × ℚ × ℚ)
  table : List (ℚ × ℚ × ℚ)
  comments : List String
deriving DecidableEq

/-- The body of the reader's `for line in lines` loop (lines 73 to 86 of
`sony_spi3d.py`), acting on one stripped, nonempty line. -/
def processLine (st : SpiScanState) (line : List Char) : Except PyError SpiScanState :=
  if line.headD ' ' = '#' then
    .ok { st with comments := st.comments ++ [String.mk (pyStrip (line.drop 1))] }
  else
    let tokens := pySplit line
    if tokens.length = 3 then
      if tokens.all (fun t => t = tokens.headD []) then
        match parseInt (tokens.headD []) with
        | .ok s => .ok { st with size := s }
        | .error e => .error e
      else .error (.assertionError nonUniformMsg)
    else if tokens.length = 6 then
      match parse_array (tokens.take 3) with
      | .error e => .error e
      | .ok idx =>
        match parse_array (tokens.drop 3) with
        | .error e => .error e
        | .ok tbl =>
          .ok { st with indexes := st.indexes ++ [toTriple idx],
                        table := st.table ++ [toTriple tbl] }
    else .ok st

/-- The reader's loop over all prepared lines. -/
def scanLines : SpiScanState → List (List Char) → Except PyError SpiScanState
  | st, [] => .ok st
  | st, l :: ls =>
    match processLine st l with
    | .ok st' => scanLines st' ls
    | .error e => .error e

/-- `filter(None, (line.strip() for line in spi3d_file.readlines()))`
(line 72): the file's lines — as text-mode `readlines` yields them, after
the universal-newlines translation — stripped, with empty lines
dropped. -/
def prepLines (content : List Char) : List (List Char) :=
  ((splitLines (translateNewlines content)).map pyStrip).filter
    (fun l => !l.isEmpty)

/-- The basename of a POSIX path. -/
def pyBasename (p : List Char) : List Char :=
  (p.reverse.takeWhile (fun c => c ≠ '/')).reverse

/-- The extension part of `os.path.splitext` on a basename: everything from
the last dot on, where the leading dots of a dotfile do not count. -/
def splitextExtAux (b : List Char) : List Char :=
  let lead := b.takeWhile (fun c => c = '.')
  let rest := b.drop lead.length
  let tail := rest.reverse.takeWhile (fun c => c ≠ '.')
  if tail.length = rest.length then [] else '.' :: tail.reverse

/-- `os.path.splitext(path)[-1]`: the extension of the path. -/
def splitext_ext (p : String) : String :=
  String.mk (splitextExtAux (pyBasename p.data))

/-- Modelled from the spec: `colour.io.luts.common.path_to_title` (its
source file is not among these sources) derives a display title from the
file path: the filename stem, underscores read as spaces (the reader's
doctest titles the file `Colour_Correct.spi3d` as `Colour Correct`). -/
def path_to_title (path : String) : String :=
  let b := pyBasename path.data
  let ext := splitextExtAux b
  String.mk ((b.take (b.length - ext.length)).map
    (fun c => if c = '_' then ' ' else c))

/-- What the reader does after its line loop (lines 88 to 96 of
`sony_spi3d.py`): the parsed index columns are checked against the
expected lattice (a negative parsed size makes `linear_table` fail first,
as `np.linspace` rejects a negative sample count), then the table rows are
reshaped to `(size, size, size, 3)` and the `LUT3D` is built. -/
def spi3dFinish (path : String) (st : SpiScanState) : Except PyError LUT3D :=
  if st.size < 0 then
    .error (.valueError "Number of samples must be non-negative")
  else if st.indexes = expectedIndexesQ st.size.toNat then
    if st.table.length = st.size.toNat ^ 3 then
      .ok { name := path_to_title path,
            domain := [[0, 0, 0], [1, 1, 1]],
            size := st.size.toNat,
            table := st.table,
            comments := st.comments }
    else .error (.valueError "cannot reshape array")
  else .error (.assertionError indexesMsg)

/-- `read_LUT_SonySPI3D` (lines 31 to 96 of `sony_spi3d.py`). The file
system is abstracted: `content` is the text of the file at `path`. -/
def read_LUT_SonySPI3D (path content : String) : Except PyError LUT3D :=
  match scanLines ⟨2, [], [], []⟩ (prepLines content.data) with
  | .error e => .error e
  | .ok st => spi3dFinish path st

/-- The digit body of a fixed-point rendering: the decimal digits of the
scaled magnitude `m`, zero-padded to at least `d + 1` digits, with the
decimal point inserted before the last `d` of them. -/
def formatFixedNat (d m : ℕ) : List Char :=
  let mag := natDigits m
  let digits := List.replicate (d + 1 - mag.length) '0' ++ mag
  if d = 0 then digits
  else digits.take (digits.length - d) ++ '.' :: digits.drop (digits.length - d)

/-- `'{0:0.df}'.format(q)` with `d = decimals`: fixed-point rendering with
`d` fractional digits, rounded to the nearest multiple of `10 ^ (-d)`,
with the sign taken from the value. -/
def formatFixed (d : ℕ) (q : ℚ) : List Char :=
  if q < 0 then '-' :: formatFixedNat d (roundQ (q * 10 ^ d)).natAbs
  else formatFixedNat d (roundQ (q * 10 ^ d)).toNat

/-- Glue tokens with single spaces, as the writer's format strings do. -/
def joinTokens : List (List Char) → List Char
  | [] => []
  | [t] => t
  | t :: ts => t ++ ' ' :: joinTokens ts

/-- Concatenate lines, each terminated by a newline, as the sequence of
`spi3d_file.write(... + '\n')` calls does. -/
def joinLines (ls : List (List Char)) : List Char :=
  ls.flatMap (fun l => l ++ ['\n'])

/-- `_format_array` (lines 150 to 156): one data row,
`'i j k r g b'` with the values at `decimals` fractional digits. -/
def formatRow (decimals : ℕ) (i j k : ℤ) (v : ℚ × ℚ × ℚ) : List Char :=
  joinTokens [intDigits i, intDigits j, intDigits k,
    formatFixed decimals v.1, formatFixed decimals v.2.1,
    formatFixed decimals v.2.2]

/-- The file content `write_LUT_SonySPI3D` produces once its assertions
have passed (lines 158 to 176): signature, stage marker, size line, the
data rows in lattice order, then the comments. Under the `LUT3D` shape
invariant `table.length = size ^ 3` (section 4.1: a table with a
mismatched shape cannot be constructed) the zip below coincides with the
source's `enumerate(indexes)` / `table[i]` loop. -/
def writeSPI3DContent (l : LUT3D) (decimals : ℕ) : List Char :=
  joinLines
    (["SPILUT 1.0".data, "3 3".data,
        joinTokens [natDigits l.size, natDigits l.size, natDigits l.size]] ++
      ((expectedIndexes l.size).zip l.table).map
        (fun r => formatRow decimals r.1.1 r.1.2.1 r.1.2.2 r.2) ++
      l.comments.map (fun c => '#' :: ' ' :: c.data))

/-- The message of the implicit-domain assertion (line 141). -/
def implicitDomainMsg : String := "\"LUT\" domain must be implicit!"

/-- The message of the `isinstance(LUT, LUT3D)` assertion (line 143). -/
def lut3dOnlyMsg : String := "\"LUT\" must be either a 3D \"LUT\"!"

/-- The message of the unit-domain assertion (lines 145 to 148). -/
def unitDomainMsg : String := "\"LUT\" domain must be [[0, 0, 0], [1, 1, 1]]!"

/-- The advisory `usage_warning` issued when a `LUTSequence` is narrowed to
its first table (lines 137 to 139); the source appends the formatted LUT. -/
def seqUsageWarning : String :=
  "\"LUT\" is a \"LUTSequence\" instance was passed, using first sequence \"LUT\":"

/-- The domain `np.array([[0, 0, 0], [1, 1, 1]])` the format mandates. -/
def unitDomain : List (List ℚ) := [[0, 0, 0], [1, 1, 1]]

/-- The assertion sequence of `write_LUT_SonySPI3D` (lines 141 to 148),
then the serialisation: first the implicit-domain check, then the variant
check, then the unit-domain check. -/
def writeSPI3DChecked (t : TableU) (decimals : ℕ) : Except PyError String :=
  if t.is_domain_explicit then .error (.assertionError implicitDomainMsg)
  else
    match t with
    | .l1 _ => .error (.assertionError lut3dOnlyMsg)
    | .l3 l =>
      if l.domain = unitDomain then .ok (String.mk (writeSPI3DContent l decimals))
      else .error (.assertionError unitDomainMsg)

/-- `write_LUT_SonySPI3D` (lines 99 to 177): a `LUTSequence` is narrowed to
its first table with an advisory warning (an empty sequence fails indexing
first), then the assertions and the serialisation run. The returned pair is
the list of warnings emitted and the outcome: the file content on success,
the exception otherwise (on which nothing is written). -/
def write_LUT_SonySPI3D (LUT : PyLUT) (decimals : ℕ) :
    List String × Except PyError String :=
  match LUT with
  | .sequence [] => ([], .error (.indexError "list index out of range"))
  | .sequence (t :: _) => ([seqUsageWarning], writeSPI3DChecked t decimals)
  | .table t => ([], writeSPI3DChecked t decimals)

/-- What a read codec returns: a single table or a `LUTSequence`. -/
inductive ReadResult where
  | single (t : TableU)
  | sequence (s : List TableU)
deriving DecidableEq

/-- Lower-casing of an ASCII character, for the case-insensitive maps. -/
def lowerChar (c : Char) : Char :=
  if 65 ≤ c.toNat && c.toNat ≤ 90 then Char.ofNat (c.toNat + 32) else c

/-- Lower-casing of a string (`CaseInsensitiveMapping` key folding). -/
def lowerStr (s : String) : String :=
  String.mk (s.data.map lowerChar)

/-- Does some stripped line of the content start with the keyword? -/
def startsWithL (pre s : List Char) : Bool :=
  s.take pre.length = pre

/-- Does the file content carry a header line with the given keyword? -/
def hasKeyword (kw : String) (content : String) : Bool :=
  (prepLines content.data).any (startsWithL kw.data)

/-- Modelled from the spec: the single-stage cube table a Cube codec
returns; its numeric payload is abstracted, since only the staging
structure and the error kinds of the Cube codecs (whose source files are
not among these sources) matter to the dispatch layer. -/
def cubeStub (path : String) : LUT3D :=
  { name := path_to_title path, domain := unitDomain, size := 2,
    table := List.replicate 8 (0, 0, 0), comments := [] }

/-- Modelled from the spec: the shaper stage a Resolve Cube codec returns;
payload abstracted as in `cubeStub`. -/
def shaperStub (path : String) : LUT1D :=
  { name := path_to_title path, domain := [[0], [1]], size := 2,
    table := [0, 1], comments := [] }

/-- Modelled from the spec: `read_LUT_IridasCube` (its source file is not
among these sources) parses the single-stage Cube grammar; a file holding
both a shaper and a cube (`LUT_1D_SIZE` next to `LUT_3D_SIZE`) violates
that grammar and fails with a `ValueError`, as does a file with no size
keyword at all (sections 4.2 and 4.3 of the specification). -/
def read_LUT_IridasCube (path content : String) : Except PyError ReadResult :=
  if hasKeyword "LUT_1D_SIZE" content && hasKeyword "LUT_3D_SIZE" content then
    .error (.valueError "single-stage Iridas Cube LUT with two size keywords")
  else if hasKeyword "LUT_3D_SIZE" content then .ok (.single (.l3 (cubeStub path)))
  else if hasKeyword "LUT_1D_SIZE" content then .ok (.single (.l1 (shaperStub path)))
  else .error (.valueError "Iridas Cube LUT with no size keyword")

/-- Modelled from the spec: `read_LUT_ResolveCube` (its source file is not
among these sources) parses the two-stage Resolve grammar: a shaper next
to a cube yields a `LUTSequence`, a lone stage a single table, and a file
with no size keyword fails with a `ValueError`. -/
def read_LUT_ResolveCube (path content : String) : Except PyError ReadResult :=
  if hasKeyword "LUT_1D_SIZE" content && hasKeyword "LUT_3D_SIZE" content then
    .ok (.sequence [.l1 (shaperStub path), .l3 (cubeStub path)])
  else if hasKeyword "LUT_3D_SIZE" content then .ok (.single (.l3 (cubeStub path)))
  else if hasKeyword "LUT_1D_SIZE" content then .ok (.single (.l1 (shaperStub path)))
  else .error (.valueError "Resolve Cube LUT with no size keyword")

/-- `EXTENSION_TO_LUT_FORMAT_MAPPING` (lines 55 to 66 of
`luts/__init__.py`), a case-insensitive mapping; a missing key means the
lookup raises a `KeyError`. -/
def EXTENSION_TO_LUT_FORMAT_MAPPING (ext : String) : Option String :=
  let k := lowerStr ext
  if k = ".cube" then some "Iridas Cube"
  else if k = ".spi1d" then some "Sony SPI1D"
  else if k = ".spi3d" then some "Sony SPI3D"
  else if k = ".spimtx" then some "Sony SPImtx"
  else if k = ".csp" then some "Cinespace"
  else if k = ".ccc" then some "ASC CDL"
  else if k = ".cdl" then some "ASC CDL"
  else if k = ".cc" then some "ASC CDL"
  else if k = ".edl" then some "EDL"
  else if k = ".ale" then some "ALE"
  else none

/-- The read registry `LUT_READ_METHODS` (lines 74 to 84), case-insensitive,
restricted to the codecs embedded in this development (the other codecs'
source files are not among these sources); a read codec takes the path and
the content of the file at that path. -/
def LUT_READ_METHODS (m : String) :
    Option (String → String → Except PyError ReadResult) :=
  let k := lowerStr m
  if k = "iridas cube" then some read_LUT_IridasCube
  else if k = "resolve cube" then some read_LUT_ResolveCube
  else if k = "sony spi3d" then
    some (fun path content =>
      (read_LUT_SonySPI3D path content).map (fun l => .single (.l3 l)))
  else none

/-- `read_LUT` (lines 98 to 182 of `luts/__init__.py`): resolve the method
from the extension when it is omitted, look the codec up, invoke it; when
the invocation raises a `ValueError` and the method is exactly
`'Iridas Cube'`, call the `'Resolve Cube'` codec instead, otherwise
re-raise. `fs` gives the content of the file at each path. -/
def read_LUT (fs : String → String) (path : String) (method : Option String) :
    Except PyError ReadResult :=
  let rm : Except PyError String :=
    match method with
    | some m => .ok m
    | none =>
      match EXTENSION_TO_LUT_FORMAT_MAPPING (splitext_ext path) with
      | some m => .ok m
      | none => .error (.keyError (splitext_ext path))
  match rm with
  | .error e => .error e
  | .ok m =>
    match LUT_READ_METHODS m with
    | none => .error (.keyError m)
    | some f =>
      match f path (fs path) with
      | .ok r => .ok r
      | .error (.valueError msg) =>
        if m = "Iridas Cube" then read_LUT_ResolveCube path (fs path)
        else .error (.valueError msg)
      | .error e => .error e

/-- Modelled from the spec: `write_LUT_IridasCube` (its source file is not
among these sources) serialises a single stage; a `LUTSequence` cannot be
represented by the single-stage grammar (section 4.3 of the
specification). The payload is abstracted to a marker content. -/
def write_LUT_IridasCube (v : PyLUT) (_path : String) (_decimals : ℕ) :
    List String × Except PyError String :=
  match v with
  | .sequence _ =>
    ([], .error (.typeError "a LUTSequence cannot be written as a single-stage Iridas Cube LUT"))
  | .table _ => ([], .ok "IRIDAS CUBE SINGLE STAGE")

/-- Modelled from the spec: `write_LUT_ResolveCube` (its source file is not
among these sources) serialises either a single stage or a shaper-plus-cube
`LUTSequence`. The payload is abstracted to a marker content. -/
def write_LUT_ResolveCube (v : PyLUT) (_path : String) (_decimals : ℕ) :
    List String × Except PyError String :=
  match v with
  | .sequence _ => ([], .ok "RESOLVE CUBE TWO STAGES")
  | .table _ => ([], .ok "RESOLVE CUBE SINGLE STAGE")

/-- The write registry `LUT_WRITE_METHODS` (lines 185 to 192),
case-insensitive, restricted to the codecs embedded in this development. -/
def LUT_WRITE_METHODS (m : String) :
    Option (PyLUT → String → ℕ → List String × Except PyError String) :=
  let k := lowerStr m
  if k = "iridas cube" then some write_LUT_IridasCube
  else if k = "resolve cube" then some write_LUT_ResolveCube
  else if k = "sony spi3d" then
    some (fun v _path d => write_LUT_SonySPI3D v d)
  else none

/-- The method-resolution step of `write_LUT` (lines 268 to 272): an
omitted method resolves through the extension mapping, and resolves to
`'Resolve Cube'` instead of `'Iridas Cube'` when the value is a
`LUTSequence`. -/
def write_LUT_resolved_method (v : PyLUT) (path : String)
    (method : Option String) : Except PyError String :=
  match method with
  | some m => .ok m
  | none =>
    match EXTENSION_TO_LUT_FORMAT_MAPPING (splitext_ext path) with
    | none => .error (.keyError (splitext_ext path))
    | some m0 =>
      .ok (if m0 = "Iridas Cube" && v.isSeq then "Resolve Cube" else m0)

/-- `write_LUT` (lines 206 to 275 of `luts/__init__.py`): resolve the
method, look the codec up, delegate. -/
def write_LUT (v : PyLUT) (path : String) (decimals : ℕ)
    (method : Option String) : List String × Except PyError String :=
  match write_LUT_resolved_method v path method with
  | .error e => ([], .error e)
  | .ok m =>
    match LUT_WRITE_METHODS m with
    | none => ([], .error (.keyError m))
    | some f => f v path decimals

/-! ## Decimal digits: printing and reading back -/

theorem floorQ_eq (q : ℚ) : floorQ q = ⌊q⌋ :=
  (Rat.floor_def).symm

theorem roundQ_eq (x : ℚ) : roundQ x = round x := by
  rw [roundQ, floorQ_eq, round_eq]

theorem natDigitsAux_congr : ∀ (n f1 f2 : ℕ), n < f1 → n < f2 →
    natDigitsAux f1 n = natDigitsAux f2 n := by
  intro n
  induction n using Nat.strongRecOn with
  | _ n ih =>
    intro f1 f2 h1 h2
    cases f1 with
    | zero => omega
    | succ g1 =>
      cases f2 with
      | zero => omega
      | succ g2 =>
        simp only [natDigitsAux]
        split
        · rfl
        · next h =>
          have hd : n / 10 < n := Nat.div_lt_self (by omega) (by omega)
          rw [ih (n / 10) hd g1 g2 (by omega) (by omega)]

theorem natDigits_unfold (n : ℕ) :
    natDigits n = if n < 10 then [digitChar n]
      else natDigits (n / 10) ++ [digitChar (n % 10)] := by
  show natDigitsAux (n + 1) n = _
  simp only [natDigitsAux]
  split
  · rfl
  · next h =>
    have hd : n / 10 < n := Nat.div_lt_self (by omega) (by omega)
    rw [natDigitsAux_congr (n / 10) n (n / 10 + 1) hd (by omega)]
    rfl

theorem digitChar_toNat {n : ℕ} (h : n < 10) : (digitChar n).toNat = 48 + n := by
  interval_cases n <;> rfl

theorem isDigitC_digitChar {n : ℕ} (h : n < 10) : isDigitC (digitChar n) = true := by
  interval_cases n <;> rfl

theorem foldl_digits (a : ℕ) (s : List Char) :
    s.foldl (fun a c => 10 * a + (c.toNat - 48)) a =
      a * 10 ^ s.length + digitsVal s := by
  induction s generalizing a with
  | nil => simp [digitsVal]
  | cons c t ih =>
    simp only [List.foldl_cons, List.length_cons, digitsVal]
    rw [ih, ih (10 * 0 + (c.toNat - 48))]
    ring

theorem digitsVal_append (a b : List Char) :
    digitsVal (a ++ b) = digitsVal a * 10 ^ b.length + digitsVal b := by
  unfold digitsVal
  rw [List.foldl_append]
  exact foldl_digits _ b

theorem digitsVal_natDigits (n : ℕ) : digitsVal (natDigits n) = n := by
  induction n using Nat.strongRecOn with
  | _ n ih =>
    rw [natDigits_unfold]
    split
    · next h =>
      simp [digitsVal, digitChar_toNat h]
    · next h =>
      rw [digitsVal_append, ih (n / 10) (Nat.div_lt_self (by omega) (by omega))]
      have h10 : n % 10 < 10 := Nat.mod_lt _ (by omega)
      simp [digitsVal, digitChar_toNat h10]
      omega

theorem natDigits_ne_nil (n : ℕ) : natDigits n ≠ [] := by
  rw [natDigits_unfold]
  split
  · simp
  · simp

theorem natDigits_all_digits (n : ℕ) :
    ∀ c ∈ natDigits n, isDigitC c = true := by
  induction n using Nat.strongRecOn with
  | _ n ih =>
    rw [natDigits_unfold]
    split
    · next h =>
      intro c hc
      simp only [List.mem_singleton] at hc
      exact hc ▸ isDigitC_digitChar h
    · next h =>
      intro c hc
      rw [List.mem_append, List.mem_singleton] at hc
      rcases hc with hc | hc
      · exact ih (n / 10) (Nat.div_lt_self (by omega) (by omega)) c hc
      · exact hc ▸ isDigitC_digitChar (Nat.mod_lt _ (by omega))

theorem isDigitC_not_space {c : Char} (h : isDigitC c = true) :
    pySpace c = false := by
  simp only [isDigitC, Bool.and_eq_true, decide_eq_true_eq] at h
  simp only [pySpace, Bool.or_eq_false_iff, Bool.and_eq_false_iff,
    decide_eq_false_iff_not]
  omega

theorem isDigitC_ne {c : Char} (h : isDigitC c = true) :
    c ≠ '#' ∧ c ≠ '-' ∧ c ≠ '+' ∧ c ≠ '.' ∧ c ≠ '\n' := by
  refine ⟨?_, ?_, ?_, ?_, ?_⟩ <;>
    (rintro rfl; exact absurd h (by decide))

/-! ## Reading a printed number back -/

theorem takeWhile_append_stop {p : Char → Bool} {a : List Char} {c : Char}
    (b : List Char) (ha : ∀ x ∈ a, p x = true) (hc : p c = false) :
    (a ++ c :: b).takeWhile p = a := by
  induction a with
  | nil => simp [List.takeWhile_cons, hc]
  | cons x t ih =>
    have hx : p x = true := ha x (by simp)
    simp only [List.cons_append, List.takeWhile_cons, hx]
    simp only [if_true]
    rw [ih (fun y hy => ha y (by simp [hy]))]

theorem dropWhile_append_stop {p : Char → Bool} {a : List Char} {c : Char}
    (b : List Char) (ha : ∀ x ∈ a, p x = true) (hc : p c = false) :
    (a ++ c :: b).dropWhile p = c :: b := by
  induction a with
  | nil => simp [List.dropWhile_cons, hc]
  | cons x t ih =>
    have hx : p x = true := ha x (by simp)
    simp only [List.cons_append, List.dropWhile_cons, hx]
    simp only [if_true]
    exact ih (fun y hy => ha y (by simp [hy]))

theorem headD_all {p : Char → Bool} {l : List Char} (h0 : l ≠ [])
    (h : ∀ c ∈ l, p c = true) (x : Char) : p (l.headD x) = true := by
  cases l with
  | nil => exact absurd rfl h0
  | cons c t => exact h c (by simp)

theorem parseUnsignedFloat_digits {t : List Char} (h0 : t ≠ [])
    (h : ∀ c ∈ t, isDigitC c = true) :
    parseUnsignedFloat t = .ok (digitsVal t) := by
  have h1 : t.takeWhile isDigitC = t := List.takeWhile_eq_self_iff.mpr h
  have h2 : t.dropWhile isDigitC = [] := List.dropWhile_eq_nil_iff.mpr h
  simp only [parseUnsignedFloat, h1, h2]
  rw [if_neg (by simpa [List.isEmpty_iff] using h0)]

theorem digitsVal_replicate_zero (k : ℕ) :
    digitsVal (List.replicate k '0') = 0 := by
  induction k with
  | zero => rfl
  | succ n ih =>
    rw [List.replicate_succ, show ('0' :: List.replicate n '0') =
      ['0'] ++ List.replicate n '0' from rfl, digitsVal_append, ih]
    simp [digitsVal]

theorem formatFixedNat_digitsVal (d m : ℕ) :
    digitsVal (List.replicate (d + 1 - (natDigits m).length) '0' ++ natDigits m) = m := by
  rw [digitsVal_append, digitsVal_replicate_zero, digitsVal_natDigits]
  ring

theorem formatFixedNat_all (d m : ℕ) :
    ∀ c ∈ List.replicate (d + 1 - (natDigits m).length) '0' ++ natDigits m,
      isDigitC c = true := by
  intro c hc
  rw [List.mem_append] at hc
  rcases hc with hc | hc
  · rw [List.eq_of_mem_replicate hc]; rfl
  · exact natDigits_all_digits m c hc

theorem formatFixedNat_len (d m : ℕ) :
    d + 1 ≤ (List.replicate (d + 1 - (natDigits m).length) '0' ++ natDigits m).length := by
  rw [List.length_append, List.length_replicate]
  have := natDigits_ne_nil m
  have : 1 ≤ (natDigits m).length := by
    cases h : natDigits m with
    | nil => exact absurd h (natDigits_ne_nil m)
    | cons a t => simp
  omega

theorem parseUnsignedFloat_formatFixedNat (d m : ℕ) :
    parseUnsignedFloat (formatFixedNat d m) = .ok ((m : ℚ) / 10 ^ d) := by
  unfold formatFixedNat
  set digits := List.replicate (d + 1 - (natDigits m).length) '0' ++ natDigits m with hdig
  have hall : ∀ c ∈ digits, isDigitC c = true := formatFixedNat_all d m
  have hlen : d + 1 ≤ digits.length := formatFixedNat_len d m
  have hval : digitsVal digits = m := formatFixedNat_digitsVal d m
  by_cases hd : d = 0
  · subst hd
    simp only [if_true]
    rw [parseUnsignedFloat_digits (by intro h; rw [h] at hlen; simp at hlen) hall, hval]
    norm_num
  · rw [if_neg hd]
    set A := digits.take (digits.length - d) with hA
    set F := digits.drop (digits.length - d) with hF
    have hAF : A ++ F = digits := List.take_append_drop _ _
    have hAall : ∀ c ∈ A, isDigitC c = true := fun c hc =>
      hall c (List.take_subset _ _ hc)
    have hFall : ∀ c ∈ F, isDigitC c = true := fun c hc =>
      hall c (List.drop_subset _ _ hc)
    have hFlen : F.length = d := by
      rw [hF, List.length_drop]; omega
    have hAlen : A.length = digits.length - d := by
      rw [hA, List.length_take]; omega
    have hAne : A ≠ [] := by
      intro h
      rw [h] at hAlen; simp at hAlen; omega
    have hdot : isDigitC '.' = false := rfl
    have h1 : (A ++ '.' :: F).takeWhile isDigitC = A :=
      takeWhile_append_stop _ hAall hdot
    have h2 : (A ++ '.' :: F).dropWhile isDigitC = '.' :: F :=
      dropWhile_append_stop _ hAall hdot
    simp only [parseUnsignedFloat, h1, h2, if_true]
    rw [if_pos]
    · have hsplit : digitsVal A * 10 ^ d + digitsVal F = m := by
        rw [← hval, ← hAF, digitsVal_append, hFlen]
      congr 1
      rw [hFlen]
      have h10 : ((10 : ℚ) ^ d) ≠ 0 := by positivity
      field_simp
      push_cast [← hsplit]
      ring
    · simp only [Bool.and_eq_true, List.all_eq_true, decide_eq_true_eq,
        Bool.not_eq_true', Bool.and_eq_false_iff]
      refine ⟨fun c hc => hFall c hc, ?_⟩
      left
      simpa [List.isEmpty_iff] using hAne

theorem formatFixedNat_head_digit (d m : ℕ) :
    isDigitC ((formatFixedNat d m).headD ' ') = true := by
  unfold formatFixedNat
  set digits := List.replicate (d + 1 - (natDigits m).length) '0' ++ natDigits m with hdig
  have hall : ∀ c ∈ digits, isDigitC c = true := formatFixedNat_all d m
  have hlen : d + 1 ≤ digits.length := formatFixedNat_len d m
  have hne : digits ≠ [] := by
    intro h; rw [h] at hlen; simp at hlen
  by_cases hd : d = 0
  · subst hd; simp only [if_true]
    exact headD_all hne hall ' '
  · rw [if_neg hd]
    set A := digits.take (digits.length - d) with hA
    have hAne : A ≠ [] := by
      intro h
      have : A.length = 0 := by rw [h]; rfl
      rw [hA, List.length_take] at this
      omega
    cases hA2 : A with
    | nil => exact absurd hA2 hAne
    | cons c t =>
      have hmem : c ∈ A := by rw [hA2]; simp
      rw [hA] at hmem
      have hc : isDigitC c = true := hall c (List.take_subset _ _ hmem)
      simp [hA2, List.cons_append]
      exact hc

theorem parseFloat_of_head_not_sign {t : List Char} (h0 : t ≠ [])
    (h1 : t.headD ' ' ≠ '-') (h2 : t.headD ' ' ≠ '+') :
    parseFloat t = parseUnsignedFloat t := by
  cases t with
  | nil => exact absurd rfl h0
  | cons c rest =>
    simp only [List.headD_cons] at h1 h2
    simp [parseFloat, h1, h2]

theorem round_nonneg_of_nonneg {x : ℚ} (h : 0 ≤ x) : 0 ≤ round x := by
  rw [round_eq]
  have h1 : (0 : ℤ) = ⌊(1 : ℚ) / 2⌋ := by norm_num
  rw [h1]
  exact Int.floor_le_floor (by linarith)

theorem round_nonpos_of_neg {x : ℚ} (h : x < 0) : round x ≤ 0 := by
  rw [round_eq]
  have h1 : (0 : ℤ) = ⌊(1 : ℚ) / 2⌋ := by norm_num
  rw [h1]
  exact Int.floor_le_floor (by linarith)

theorem parseFloat_formatFixed (d : ℕ) (q : ℚ) :
    parseFloat (formatFixed d q) = .ok ((round (q * 10 ^ d) : ℚ) / 10 ^ d) := by
  unfold formatFixed
  simp only [roundQ_eq]
  by_cases hq : q < 0
  · rw [if_pos hq]
    have hn : round (q * 10 ^ d) ≤ 0 :=
      round_nonpos_of_neg (mul_neg_of_neg_of_pos hq (by positivity))
    have hstep : parseFloat ('-' :: formatFixedNat d (round (q * 10 ^ d)).natAbs) =
        (parseUnsignedFloat (formatFixedNat d (round (q * 10 ^ d)).natAbs)).map
          (fun q => -q) := by
      simp [parseFloat]
    rw [hstep, parseUnsignedFloat_formatFixedNat]
    simp only [Except.map]
    congr 1
    have habs : ((round (q * 10 ^ d)).natAbs : ℚ) = -((round (q * 10 ^ d) : ℤ) : ℚ) := by
      push_cast [Int.cast_natAbs]
      rw [abs_of_nonpos (by exact_mod_cast hn)]
    rw [habs]
    ring
  · rw [if_neg hq]
    have hn : 0 ≤ round (q * 10 ^ d) :=
      round_nonneg_of_nonneg (mul_nonneg (le_of_not_lt hq) (by positivity))
    have hne : formatFixedNat d (round (q * 10 ^ d)).toNat ≠ [] := by
      intro h
      have := formatFixedNat_head_digit d (round (q * 10 ^ d)).toNat
      rw [h] at this
      exact absurd this (by decide)
    have hhd := formatFixedNat_head_digit d (round (q * 10 ^ d)).toNat
    rw [parseFloat_of_head_not_sign hne (isDigitC_ne hhd).2.1 (isDigitC_ne hhd).2.2.1]
    rw [parseUnsignedFloat_formatFixedNat]
    congr 1
    have h3 : ((round (q * 10 ^ d)).toNat : ℚ) = ((round (q * 10 ^ d) : ℤ) : ℚ) := by
      exact_mod_cast Int.toNat_of_nonneg hn
    rw [h3]

theorem parseFloat_natDigits (n : ℕ) : parseFloat (natDigits n) = .ok (n : ℚ) := by
  have hhd := headD_all (natDigits_ne_nil n) (natDigits_all_digits n) ' '
  rw [parseFloat_of_head_not_sign (natDigits_ne_nil n)
    (isDigitC_ne hhd).2.1 (isDigitC_ne hhd).2.2.1]
  rw [parseUnsignedFloat_digits (natDigits_ne_nil n) (natDigits_all_digits n),
    digitsVal_natDigits]

theorem parseInt_natDigits (n : ℕ) : parseInt (natDigits n) = .ok (n : ℤ) := by
  have hhd := headD_all (natDigits_ne_nil n) (natDigits_all_digits n) ' '
  have hu : parseIntUnsigned (natDigits n) = .ok (n : ℤ) := by
    unfold parseIntUnsigned
    rw [if_pos]
    · rw [digitsVal_natDigits]
    · simp only [Bool.and_eq_true, Bool.not_eq_true', List.all_eq_true]
      exact ⟨by simpa [List.isEmpty_iff] using natDigits_ne_nil n,
        natDigits_all_digits n⟩
  cases ht : natDigits n with
  | nil => exact absurd ht (natDigits_ne_nil n)
  | cons c rest =>
    rw [ht] at hhd hu
    simp only [List.headD_cons] at hhd
    simp [parseInt, (isDigitC_ne hhd).2.1, (isDigitC_ne hhd).2.2.1, hu]

/-! ## Splitting into tokens and lines -/

theorem pySplitAux_no_space (t : List Char) (rest acc : List Char)
    (h : ∀ c ∈ t, pySpace c = false) :
    pySplitAux (t ++ rest) acc = pySplitAux rest (t.reverse ++ acc) := by
  induction t generalizing acc with
  | nil => simp
  | cons c u ih =>
    have hc : pySpace c = false := h c (by simp)
    simp only [List.cons_append, pySplitAux, hc, List.append_eq]
    simp only [Bool.false_eq_true, if_false]
    rw [ih (c :: acc) (fun y hy => h y (by simp [hy]))]
    simp

theorem pySplit_single (t : List Char) (h0 : t ≠ [])
    (h : ∀ c ∈ t, pySpace c = false) : pySplit t = [t] := by
  unfold pySplit
  have := pySplitAux_no_space t [] [] h
  rw [List.append_nil] at this
  rw [this]
  simp only [pySplitAux, List.append_nil]
  rw [if_neg (by simpa [List.isEmpty_iff] using h0)]
  simp

theorem pySplit_joinTokens (ts : List (List Char))
    (h : ∀ t ∈ ts, t ≠ [] ∧ ∀ c ∈ t, pySpace c = false) :
    pySplit (joinTokens ts) = ts := by
  induction ts with
  | nil => rfl
  | cons t ts ih =>
    cases ts with
    | nil =>
      exact pySplit_single t (h t (by simp)).1 (h t (by simp)).2
    | cons t2 ts2 =>
      have ht := h t (by simp)
      show pySplit (t ++ ' ' :: joinTokens (t2 :: ts2)) = t :: t2 :: ts2
      unfold pySplit
      rw [pySplitAux_no_space t _ [] ht.2, List.append_nil]
      simp only [pySplitAux, show pySpace ' ' = true from rfl, if_true]
      rw [if_neg (by simpa [List.isEmpty_iff] using ht.1)]
      rw [List.reverse_reverse]
      have := ih (fun u hu => h u (by simp [hu]))
      unfold pySplit at this
      rw [this]

theorem splitLinesAux_no_nl (t : List Char) (rest acc : List Char)
    (h : '\n' ∉ t) :
    splitLinesAux (t ++ rest) acc = splitLinesAux rest (t.reverse ++ acc) := by
  induction t generalizing acc with
  | nil => simp
  | cons c u ih =>
    have hc : c ≠ '\n' := fun hc => h (by simp [hc])
    simp only [List.cons_append, splitLinesAux, hc, List.append_eq]
    simp only [if_false]
    rw [ih (c :: acc) (fun hy => h (by simp [hy]))]
    simp

theorem splitLines_joinLines (ls : List (List Char))
    (h : ∀ l ∈ ls, '\n' ∉ l) :
    splitLines (joinLines ls) = ls ++ [[]] := by
  induction ls with
  | nil => rfl
  | cons l ls ih =>
    show splitLines ((l ++ ['\n']) ++ joinLines ls) = (l :: ls) ++ [[]]
    unfold splitLines
    rw [List.append_assoc, splitLinesAux_no_nl l _ [] (h l (by simp)),
      List.append_nil]
    show splitLinesAux ('\n' :: joinLines ls) l.reverse = _
    simp only [splitLinesAux, if_pos rfl, List.reverse_reverse]
    have := ih (fun u hu => h u (by simp [hu]))
    unfold splitLines at this
    rw [this]
    simp

theorem translateNewlinesAux_eq_self {s : List Char} (h : '\r' ∉ s) :
    translateNewlinesAux false s = s := by
  induction s with
  | nil => rfl
  | cons c cs ih =>
    have hc : c ≠ '\r' := fun hc => h (hc ▸ List.mem_cons_self c cs)
    have hcs : '\r' ∉ cs := fun hm => h (List.mem_cons_of_mem c hm)
    by_cases hn : c = '\n'
    · subst hn
      simp [translateNewlinesAux, ih hcs]
    · simp [translateNewlinesAux, hn, hc, ih hcs]

theorem translateNewlines_eq_self {s : List Char} (h : '\r' ∉ s) :
    translateNewlines s = s :=
  translateNewlinesAux_eq_self h

/-! ## Stripping -/

theorem stripLeft_eq_self {s : List Char} (h : pySpace (s.headD 'x') = false) :
    stripLeft s = s := by
  cases s with
  | nil => rfl
  | cons c t =>
    simp only [List.headD_cons] at h
    simp [stripLeft, List.dropWhile_cons, h]

theorem pyStrip_eq_self {s : List Char} (h1 : pySpace (s.headD 'x') = false)
    (h2 : pySpace (s.reverse.headD 'x') = false) : pyStrip s = s := by
  unfold pyStrip
  rw [stripLeft_eq_self h1]
  have := stripLeft_eq_self h2
  unfold stripLeft at this
  rw [this, List.reverse_reverse]

theorem headD_append_left {a : List Char} (b : List Char) (x : Char)
    (h : a ≠ []) : (a ++ b).headD x = a.headD x := by
  cases a with
  | nil => exact absurd rfl h
  | cons c t => simp

theorem rev_headD_append {a : List Char} (b : List Char) (x : Char)
    (h : b ≠ []) : ((a ++ b).reverse).headD x = b.reverse.headD x := by
  rw [List.reverse_append]
  exact headD_append_left _ _ (by simpa using h)

/-! ## Character classes of the printed tokens -/

theorem formatFixedNat_mem (d m : ℕ) :
    ∀ c ∈ formatFixedNat d m, isDigitC c = true ∨ c = '.' := by
  unfold formatFixedNat
  set digits := List.replicate (d + 1 - (natDigits m).length) '0' ++ natDigits m with hdig
  have hall : ∀ c ∈ digits, isDigitC c = true := formatFixedNat_all d m
  by_cases hd : d = 0
  · subst hd
    simp only [if_true]
    exact fun c hc => Or.inl (hall c hc)
  · rw [if_neg hd]
    intro c hc
    rw [List.mem_append, List.mem_cons] at hc
    rcases hc with hc | hc | hc
    · exact Or.inl (hall c (List.take_subset _ _ hc))
    · exact Or.inr hc
    · exact Or.inl (hall c (List.drop_subset _ _ hc))

theorem formatFixedNat_ne_nil (d m : ℕ) : formatFixedNat d m ≠ [] := by
  intro h
  have := formatFixedNat_head_digit d m
  rw [h] at this
  exact absurd this (by decide)

theorem formatFixedNat_rev_head (d m : ℕ) (x : Char) :
    isDigitC ((formatFixedNat d m).reverse.headD x) = true := by
  unfold formatFixedNat
  set digits := List.replicate (d + 1 - (natDigits m).length) '0' ++ natDigits m with hdig
  have hall : ∀ c ∈ digits, isDigitC c = true := formatFixedNat_all d m
  have hlen : d + 1 ≤ digits.length := formatFixedNat_len d m
  have hne : digits ≠ [] := by
    intro h; rw [h] at hlen; simp at hlen
  by_cases hd : d = 0
  · subst hd
    simp only [if_true]
    refine headD_all ?_ ?_ x
    · intro h
      rw [List.reverse_eq_nil_iff] at h
      exact hne h
    · intro c hc
      rw [List.mem_reverse] at hc
      exact hall c hc
  · rw [if_neg hd]
    set F := digits.drop (digits.length - d) with hF
    have hFlen : F.length = d := by rw [hF, List.length_drop]; omega
    have hFne : F ≠ [] := by
      intro h
      rw [h] at hFlen
      simp at hFlen
      omega
    rw [rev_headD_append _ _ (by simp)]
    rw [List.reverse_cons]
    rw [headD_append_left _ _ (by simpa using hFne)]
    refine headD_all (by simpa using hFne) ?_ x
    intro c hc
    rw [List.mem_reverse] at hc
    rw [hF] at hc
    exact hall c (List.drop_subset _ _ hc)

theorem formatFixed_mem (d : ℕ) (q : ℚ) :
    ∀ c ∈ formatFixed d q, isDigitC c = true ∨ c = '.' ∨ c = '-' := by
  unfold formatFixed
  split
  · intro c hc
    rw [List.mem_cons] at hc
    rcases hc with hc | hc
    · exact Or.inr (Or.inr hc)
    · rcases formatFixedNat_mem _ _ c hc with h | h
      · exact Or.inl h
      · exact Or.inr (Or.inl h)
  · intro c hc
    rcases formatFixedNat_mem _ _ c hc with h | h
    · exact Or.inl h
    · exact Or.inr (Or.inl h)

theorem formatFixed_no_space (d : ℕ) (q : ℚ) :
    ∀ c ∈ formatFixed d q, pySpace c = false := by
  intro c hc
  rcases formatFixed_mem d q c hc with h | h | h
  · exact isDigitC_not_space h
  · rw [h]; rfl
  · rw [h]; rfl

theorem formatFixed_no_nl (d : ℕ) (q : ℚ) : '\n' ∉ formatFixed d q := by
  intro hc
  rcases formatFixed_mem d q _ hc with h | h | h
  · exact absurd h (by decide)
  · exact absurd h (by decide)
  · exact absurd h (by decide)

theorem formatFixed_no_cr (d : ℕ) (q : ℚ) : '\r' ∉ formatFixed d q := by
  intro hc
  rcases formatFixed_mem d q _ hc with h | h | h
  · exact absurd h (by decide)
  · exact absurd h (by decide)
  · exact absurd h (by decide)

theorem formatFixed_ne_nil (d : ℕ) (q : ℚ) : formatFixed d q ≠ [] := by
  unfold formatFixed
  split
  · simp
  · exact formatFixedNat_ne_nil _ _

theorem formatFixed_rev_head (d : ℕ) (q : ℚ) (x : Char) :
    isDigitC ((formatFixed d q).reverse.headD x) = true := by
  unfold formatFixed
  split
  · rw [show ('-' :: formatFixedNat d (roundQ (q * 10 ^ d)).natAbs) =
      ['-'] ++ formatFixedNat d (roundQ (q * 10 ^ d)).natAbs from rfl,
      rev_headD_append _ _ (formatFixedNat_ne_nil _ _)]
    exact formatFixedNat_rev_head _ _ x
  · exact formatFixedNat_rev_head _ _ x

theorem natDigits_no_space (n : ℕ) : ∀ c ∈ natDigits n, pySpace c = false :=
  fun c hc => isDigitC_not_space (natDigits_all_digits n c hc)

theorem natDigits_no_nl (n : ℕ) : '\n' ∉ natDigits n := by
  intro hc
  exact absurd (natDigits_all_digits n _ hc) (by decide)

theorem natDigits_no_cr (n : ℕ) : '\r' ∉ natDigits n := by
  intro hc
  exact absurd (natDigits_all_digits n _ hc) (by decide)

/-! ## The index lattice -/

/-- The integer lattice `(i, j, k)` for `i, j, k < s`, row-major, last
axis fastest. -/
def latticeN (s : ℕ) : List (ℕ × ℕ × ℕ) :=
  (List.range s).flatMap fun i =>
    (List.range s).flatMap fun j =>
      (List.range s).map fun k => (i, j, k)

theorem truncQ_cast_div_mul (i : ℕ) (e : ℚ) (he : e ≠ 0) :
    truncQ ((i : ℚ) / e * e) = (i : ℤ) := by
  rw [div_mul_cancel₀ _ he]
  unfold truncQ
  rw [Rat.num_natCast, Rat.den_natCast]
  simp [Int.tdiv_one]

theorem truncQ_lattice_point {s i : ℕ} (hi : i < s) :
    truncQ ((i : ℚ) / ((s : ℚ) - 1) * ((s : ℚ) - 1)) = (i : ℤ) := by
  by_cases he : ((s : ℚ) - 1) = 0
  · have hs1 : (s : ℚ) = 1 := by linarith [sub_eq_zero.mp he]
    have hs : s = 1 := by exact_mod_cast hs1
    subst hs
    interval_cases i
    with_unfolding_all rfl
  · exact truncQ_cast_div_mul i _ he

theorem expectedIndexes_eq_latticeN (s : ℕ) :
    expectedIndexes s =
      (latticeN s).map (fun v => ((v.1 : ℤ), (v.2.1 : ℤ), (v.2.2 : ℤ))) := by
  unfold expectedIndexes LUT3D.linear_table latticeN
  rw [List.map_flatMap, List.map_flatMap]
  rw [List.flatMap_def, List.flatMap_def]
  refine congrArg List.flatten (List.map_congr_left fun i hi => ?_)
  rw [List.map_flatMap, List.map_flatMap]
  rw [List.flatMap_def, List.flatMap_def]
  refine congrArg List.flatten (List.map_congr_left fun j hj => ?_)
  rw [List.map_map, List.map_map]
  refine List.map_congr_left fun k hk => ?_
  rw [List.mem_range] at hi hj hk
  simp only [Function.comp_apply]
  rw [truncQ_lattice_point hi, truncQ_lattice_point hj, truncQ_lattice_point hk]

theorem latticeN_length (s : ℕ) : (latticeN s).length = s ^ 3 := by
  unfold latticeN
  rw [List.length_flatMap]
  have h1 : ∀ i ∈ List.range s,
      ((List.range s).flatMap fun j =>
        (List.range s).map fun k => (i, j, k)).length = s * s := by
    intro i _
    rw [List.length_flatMap]
    simp only [Function.comp_def]
    have h2 : ∀ j ∈ List.range s,
        ((List.range s).map fun k => (i, j, k)).length = s := by
      intro j _
      rw [List.length_map, List.length_range]
    rw [List.map_congr_left h2, List.map_const', List.sum_replicate,
      List.length_range, smul_eq_mul]
  simp only [Function.comp_def]
  rw [List.map_congr_left h1, List.map_const', List.sum_replicate,
    List.length_range, smul_eq_mul]
  ring

/-- One rounded sample triple, as fixed-point serialisation at `d`
fractional digits reproduces it. -/
def roundTriple (d : ℕ) (v : ℚ × ℚ × ℚ) : ℚ × ℚ × ℚ :=
  ((round (v.1 * 10 ^ d) : ℚ) / 10 ^ d, (round (v.2.1 * 10 ^ d) : ℚ) / 10 ^ d,
    (round (v.2.2 * 10 ^ d) : ℚ) / 10 ^ d)

theorem scanLines_append (st : SpiScanState) (a b : List (List Char)) :
    scanLines st (a ++ b) =
      match scanLines st a with
      | .ok st2 => scanLines st2 b
      | .error e => .error e := by
  induction a generalizing st with
  | nil => simp [scanLines]
  | cons l ls ih =>
    simp only [List.cons_append, scanLines]
    cases processLine st l with
    | ok st2 => exact ih st2
    | error e => rfl

theorem scanLines_cons_ok {st st2 : SpiScanState} {line : List Char}
    {ls : List (List Char)} (h : processLine st line = .ok st2) :
    scanLines st (line :: ls) = scanLines st2 ls := by
  show (match processLine st line with
    | .ok s => scanLines s ls
    | .error e => .error e) = _
  rw [h]

theorem scanLines_append_ok {st st2 : SpiScanState} {a b : List (List Char)}
    (h : scanLines st a = .ok st2) :
    scanLines st (a ++ b) = scanLines st2 b := by
  rw [scanLines_append, h]

theorem read_LUT_SonySPI3D_of_scan {path content : String} {st : SpiScanState}
    (h : scanLines ⟨2, [], [], []⟩ (prepLines content.data) = .ok st) :
    read_LUT_SonySPI3D path content = spi3dFinish path st := by
  unfold read_LUT_SonySPI3D
  rw [h]

theorem processLine_skip (st : SpiScanState) (line : List Char)
    (h1 : line.headD ' ' ≠ '#') (h3 : (pySplit line).length ≠ 3)
    (h6 : (pySplit line).length ≠ 6) : processLine st line = .ok st := by
  simp only [processLine]
  rw [if_neg h1, if_neg h3, if_neg h6]

theorem processLine_header1 (st : SpiScanState) :
    processLine st ['S', 'P', 'I', 'L', 'U', 'T', ' ', '1', '.', '0'] = .ok st :=
  processLine_skip st _ (by decide) (by decide) (by decide)

theorem processLine_header2 (st : SpiScanState) :
    processLine st ['3', ' ', '3'] = .ok st :=
  processLine_skip st _ (by decide) (by decide) (by decide)

theorem intDigits_natCast (n : ℕ) : intDigits (n : ℤ) = natDigits n := by
  unfold intDigits
  rw [if_neg (Int.natCast_nonneg n).not_lt, Int.toNat_natCast]

theorem processLine_sizeLine (st : SpiScanState) (s : ℕ) :
    processLine st (joinTokens [natDigits s, natDigits s, natDigits s]) =
      .ok { st with size := (s : ℤ) } := by
  have htok : pySplit (joinTokens [natDigits s, natDigits s, natDigits s]) =
      [natDigits s, natDigits s, natDigits s] := by
    apply pySplit_joinTokens
    intro t ht
    simp only [List.mem_cons, List.not_mem_nil, or_false] at ht
    rcases ht with rfl | rfl | rfl <;>
      exact ⟨natDigits_ne_nil s, natDigits_no_space s⟩
  have hj : joinTokens [natDigits s, natDigits s, natDigits s] =
      natDigits s ++ ' ' :: (natDigits s ++ ' ' :: natDigits s) := rfl
  have hhead : (joinTokens [natDigits s, natDigits s, natDigits s]).headD ' ' ≠ '#' := by
    rw [hj, headD_append_left _ _ (natDigits_ne_nil s)]
    exact (isDigitC_ne (headD_all (natDigits_ne_nil s) (natDigits_all_digits s) ' ')).1
  simp only [processLine]
  rw [if_neg hhead, htok]
  rw [if_pos (by simp)]
  rw [if_pos (by simp)]
  rw [List.headD_cons, parseInt_natDigits]

theorem processLine_row (st : SpiScanState) (d i j k : ℕ) (v : ℚ × ℚ × ℚ) :
    processLine st (formatRow d (i : ℤ) (j : ℤ) (k : ℤ) v) =
      .ok { st with
        indexes := st.indexes ++ [((i : ℚ), (j : ℚ), (k : ℚ))],
        table := st.table ++ [roundTriple d v] } := by
  have hrow : formatRow d (i : ℤ) (j : ℤ) (k : ℤ) v =
      joinTokens [natDigits i, natDigits j, natDigits k,
        formatFixed d v.1, formatFixed d v.2.1, formatFixed d v.2.2] := by
    unfold formatRow
    rw [intDigits_natCast, intDigits_natCast, intDigits_natCast]
  have htok : pySplit (joinTokens [natDigits i, natDigits j, natDigits k,
      formatFixed d v.1, formatFixed d v.2.1, formatFixed d v.2.2]) =
      [natDigits i, natDigits j, natDigits k,
        formatFixed d v.1, formatFixed d v.2.1, formatFixed d v.2.2] := by
    apply pySplit_joinTokens
    intro t ht
    simp only [List.mem_cons, List.not_mem_nil, or_false] at ht
    rcases ht with rfl | rfl | rfl | rfl | rfl | rfl
    · exact ⟨natDigits_ne_nil i, natDigits_no_space i⟩
    · exact ⟨natDigits_ne_nil j, natDigits_no_space j⟩
    · exact ⟨natDigits_ne_nil k, natDigits_no_space k⟩
    · exact ⟨formatFixed_ne_nil d v.1, formatFixed_no_space d v.1⟩
    · exact ⟨formatFixed_ne_nil d v.2.1, formatFixed_no_space d v.2.1⟩
    · exact ⟨formatFixed_ne_nil d v.2.2, formatFixed_no_space d v.2.2⟩
  have hj : joinTokens [natDigits i, natDigits j, natDigits k,
      formatFixed d v.1, formatFixed d v.2.1, formatFixed d v.2.2] =
      natDigits i ++ ' ' :: joinTokens [natDigits j, natDigits k,
        formatFixed d v.1, formatFixed d v.2.1, formatFixed d v.2.2] := rfl
  have hhead : (joinTokens [natDigits i, natDigits j, natDigits k,
      formatFixed d v.1, formatFixed d v.2.1, formatFixed d v.2.2]).headD ' ' ≠ '#' := by
    rw [hj, headD_append_left _ _ (natDigits_ne_nil i)]
    exact (isDigitC_ne (headD_all (natDigits_ne_nil i) (natDigits_all_digits i) ' ')).1
  have hpa1 : parse_array [natDigits i, natDigits j, natDigits k] =
      .ok [(i : ℚ), (j : ℚ), (k : ℚ)] := by
    simp [parse_array, List.mapM, List.mapM.loop, parseFloat_natDigits,
      Bind.bind, Except.bind, Pure.pure, Except.pure]
  have hpa2 : parse_array [formatFixed d v.1, formatFixed d v.2.1,
      formatFixed d v.2.2] =
      .ok [(round (v.1 * 10 ^ d) : ℚ) / 10 ^ d,
        (round (v.2.1 * 10 ^ d) : ℚ) / 10 ^ d,
        (round (v.2.2 * 10 ^ d) : ℚ) / 10 ^ d] := by
    simp [parse_array, List.mapM, List.mapM.loop, parseFloat_formatFixed,
      Bind.bind, Except.bind, Pure.pure, Except.pure]
  rw [hrow]
  simp only [processLine]
  rw [if_neg hhead, htok]
  rw [if_neg (by simp)]
  rw [if_pos (by simp)]
  rw [show ([natDigits i, natDigits j, natDigits k, formatFixed d v.1,
    formatFixed d v.2.1, formatFixed d v.2.2].take 3) =
    [natDigits i, natDigits j, natDigits k] from rfl]
  rw [show ([natDigits i, natDigits j, natDigits k, formatFixed d v.1,
    formatFixed d v.2.1, formatFixed d v.2.2].drop 3) =
    [formatFixed d v.1, formatFixed d v.2.1, formatFixed d v.2.2] from rfl]
  rw [hpa1, hpa2]
  rfl

theorem pyStrip_boundary {s : List Char} (h : pyStrip s = s) :
    pySpace (s.headD 'x') = false ∧ pySpace (s.reverse.headD 'x') = false := by
  have hsl : stripLeft s = s := by
    have l1 : (pyStrip s).length ≤ (stripLeft s).length := by
      unfold pyStrip
      rw [List.length_reverse]
      calc ((stripLeft s).reverse.dropWhile pySpace).length
          ≤ (stripLeft s).reverse.length := (List.dropWhile_suffix _).length_le
        _ = (stripLeft s).length := List.length_reverse _
    have l2 : (stripLeft s).length ≤ s.length := (List.dropWhile_suffix _).length_le
    rw [h] at l1
    unfold stripLeft at l1 l2
    exact (List.dropWhile_suffix pySpace).eq_of_length (by omega)
  constructor
  · cases hs : s with
    | nil => rfl
    | cons d t =>
      rw [List.headD_cons]
      by_contra hd
      rw [Bool.not_eq_false] at hd
      rw [hs] at hsl
      simp only [stripLeft, List.dropWhile_cons, hd, if_true] at hsl
      have := (List.dropWhile_suffix (l := t) pySpace).length_le
      rw [hsl] at this
      simp at this
  · cases hs : s.reverse with
    | nil => rfl
    | cons d t =>
      rw [List.headD_cons]
      by_contra hd
      rw [Bool.not_eq_false] at hd
      have hps : pyStrip s = (s.reverse.dropWhile pySpace).reverse := by
        unfold pyStrip
        rw [hsl]
      rw [hs] at hps
      simp only [List.dropWhile_cons, hd, if_true] at hps
      have hlen1 : (pyStrip s).length ≤ t.length := by
        rw [hps, List.length_reverse]
        exact (List.dropWhile_suffix _).length_le
      have hlen2 : s.length = t.length + 1 := by
        rw [← List.length_reverse s, hs]
        simp
      rw [h] at hlen1
      omega

theorem processLine_comment (st : SpiScanState) (c : String)
    (hc : pyStrip c.data = c.data) :
    processLine st (pyStrip ('#' :: ' ' :: c.data)) =
      .ok { st with comments := st.comments ++ [c] } := by
  cases hd : c.data with
  | nil =>
    obtain rfl : c = "" := by
      cases c with
      | mk l =>
        have hl : l = [] := hd
        subst hl
        rfl
    have h1 : pyStrip ('#' :: ' ' :: ("" : String).data) = ['#'] := by decide
    rw [h1]
    simp only [processLine]
    rw [if_pos (by rw [List.headD_cons])]
    rfl
  | cons a t =>
    rw [← hd]
    have hb := pyStrip_boundary hc
    obtain ⟨hbh, hbt⟩ := hb
    have hcne : c.data ≠ [] := by rw [hd]; simp
    have hline : pyStrip ('#' :: ' ' :: c.data) = '#' :: ' ' :: c.data := by
      apply pyStrip_eq_self
      · rw [List.headD_cons]; rfl
      · rw [show ('#' :: ' ' :: c.data) = ['#', ' '] ++ c.data from rfl,
          rev_headD_append _ _ hcne]
        exact hbt
    rw [hline]
    simp only [processLine]
    rw [if_pos (by rw [List.headD_cons])]
    have hdrop : ('#' :: ' ' :: c.data).drop 1 = ' ' :: c.data := rfl
    rw [hdrop]
    have h1 : stripLeft (' ' :: c.data) = c.data := by
      have hsp : pySpace ' ' = true := rfl
      rw [stripLeft, List.dropWhile_cons, if_pos hsp]
      exact stripLeft_eq_self hbh
    have hstrip2 : pyStrip (' ' :: c.data) = c.data := by
      unfold pyStrip
      rw [show stripLeft (' ' :: c.data) = c.data from h1]
      rw [show c.data.reverse.dropWhile pySpace = c.data.reverse from
        stripLeft_eq_self hbt]
      exact List.reverse_reverse _
    rw [hstrip2]

theorem scanLines_rows (d : ℕ) (ps : List ((ℕ × ℕ × ℕ) × (ℚ × ℚ × ℚ)))
    (st : SpiScanState) :
    scanLines st (ps.map fun p =>
        formatRow d (p.1.1 : ℤ) (p.1.2.1 : ℤ) (p.1.2.2 : ℤ) p.2) =
      .ok { st with
        indexes := st.indexes ++
          ps.map (fun p => ((p.1.1 : ℚ), (p.1.2.1 : ℚ), (p.1.2.2 : ℚ))),
        table := st.table ++ ps.map (fun p => roundTriple d p.2) } := by
  induction ps generalizing st with
  | nil => simp [scanLines]
  | cons p ps ih =>
    simp only [List.map_cons, scanLines, processLine_row]
    rw [ih]
    simp [List.append_assoc]

theorem scanLines_comments (cs : List String) (st : SpiScanState)
    (h : ∀ c ∈ cs, pyStrip c.data = c.data) :
    scanLines st (cs.map fun c => pyStrip ('#' :: ' ' :: c.data)) =
      .ok { st with comments := st.comments ++ cs } := by
  induction cs generalizing st with
  | nil => simp [scanLines]
  | cons c cs ih =>
    simp only [List.map_cons, scanLines, processLine_comment st c (h c (by simp))]
    rw [ih _ (fun u hu => h u (by simp [hu]))]
    simp [List.append_assoc]

/-! ## The written file, line by line -/

theorem rev_headD_sep (x y : List Char) (d : Char) (hy : y ≠ []) :
    ((x ++ ' ' :: y).reverse).headD d = y.reverse.headD d := by
  rw [rev_headD_append _ _ (by simp)]
  rw [List.reverse_cons]
  exact headD_append_left _ _ (by simpa using hy)

theorem joinTokens_mem (ts : List (List Char)) :
    ∀ c ∈ joinTokens ts, c = ' ' ∨ ∃ t ∈ ts, c ∈ t := by
  induction ts with
  | nil => intro c hc; simp [joinTokens] at hc
  | cons t ts ih =>
    cases ts with
    | nil =>
      intro c hc
      exact Or.inr ⟨t, by simp, hc⟩
    | cons t2 ts2 =>
      intro c hc
      rw [show joinTokens (t :: t2 :: ts2) = t ++ ' ' :: joinTokens (t2 :: ts2)
        from rfl] at hc
      rw [List.mem_append, List.mem_cons] at hc
      rcases hc with hc | hc | hc
      · exact Or.inr ⟨t, by simp, hc⟩
      · exact Or.inl hc
      · rcases ih c hc with h | ⟨u, hu, hcu⟩
        · exact Or.inl h
        · exact Or.inr ⟨u, by simp [hu], hcu⟩

theorem sizeLine_no_nl (s : ℕ) :
    '\n' ∉ joinTokens [natDigits s, natDigits s, natDigits s] := by
  intro hc
  rcases joinTokens_mem _ _ hc with h | ⟨u, hu, hcu⟩
  · exact absurd h (by decide)
  · simp only [List.mem_cons, List.not_mem_nil, or_false] at hu
    rcases hu with rfl | rfl | rfl <;> exact natDigits_no_nl s hcu

theorem sizeLine_no_cr (s : ℕ) :
    '\r' ∉ joinTokens [natDigits s, natDigits s, natDigits s] := by
  intro hc
  rcases joinTokens_mem _ _ hc with h | ⟨u, hu, hcu⟩
  · exact absurd h (by decide)
  · simp only [List.mem_cons, List.not_mem_nil, or_false] at hu
    rcases hu with rfl | rfl | rfl <;> exact natDigits_no_cr s hcu

theorem formatRow_no_nl (d : ℕ) (i j k : ℕ) (v : ℚ × ℚ × ℚ) :
    '\n' ∉ formatRow d (i : ℤ) (j : ℤ) (k : ℤ) v := by
  intro hc
  unfold formatRow at hc
  rw [intDigits_natCast, intDigits_natCast, intDigits_natCast] at hc
  rcases joinTokens_mem _ _ hc with h | ⟨u, hu, hcu⟩
  · exact absurd h (by decide)
  · simp only [List.mem_cons, List.not_mem_nil, or_false] at hu
    rcases hu with rfl | rfl | rfl | rfl | rfl | rfl
    · exact natDigits_no_nl i hcu
    · exact natDigits_no_nl j hcu
    · exact natDigits_no_nl k hcu
    · exact formatFixed_no_nl d v.1 hcu
    · exact formatFixed_no_nl d v.2.1 hcu
    · exact formatFixed_no_nl d v.2.2 hcu

theorem formatRow_no_cr (d : ℕ) (i j k : ℕ) (v : ℚ × ℚ × ℚ) :
    '\r' ∉ formatRow d (i : ℤ) (j : ℤ) (k : ℤ) v := by
  intro hc
  unfold formatRow at hc
  rw [intDigits_natCast, intDigits_natCast, intDigits_natCast] at hc
  rcases joinTokens_mem _ _ hc with h | ⟨u, hu, hcu⟩
  · exact absurd h (by decide)
  · simp only [List.mem_cons, List.not_mem_nil, or_false] at hu
    rcases hu with rfl | rfl | rfl | rfl | rfl | rfl
    · exact natDigits_no_cr i hcu
    · exact natDigits_no_cr j hcu
    · exact natDigits_no_cr k hcu
    · exact formatFixed_no_cr d v.1 hcu
    · exact formatFixed_no_cr d v.2.1 hcu
    · exact formatFixed_no_cr d v.2.2 hcu

theorem joinLines_no_cr (ls : List (List Char))
    (h : ∀ l ∈ ls, '\r' ∉ l) : '\r' ∉ joinLines ls := by
  intro hc
  rw [joinLines, List.mem_flatMap] at hc
  obtain ⟨l, hl, hcl⟩ := hc
  rw [List.mem_append] at hcl
  rcases hcl with hcl | hcl
  · exact h l hl hcl
  · exact absurd (List.mem_singleton.mp hcl) (by decide)

theorem sizeLine_strip (s : ℕ) :
    pyStrip (joinTokens [natDigits s, natDigits s, natDigits s]) =
      joinTokens [natDigits s, natDigits s, natDigits s] := by
  have hA := natDigits_ne_nil s
  have hj : joinTokens [natDigits s, natDigits s, natDigits s] =
      natDigits s ++ ' ' :: (natDigits s ++ ' ' :: natDigits s) := rfl
  rw [hj]
  apply pyStrip_eq_self
  · rw [headD_append_left _ _ hA]
    exact isDigitC_not_space (headD_all hA (natDigits_all_digits s) 'x')
  · rw [rev_headD_sep _ _ _ (by simp), rev_headD_sep _ _ _ hA]
    refine isDigitC_not_space (headD_all ?_ ?_ 'x')
    · intro h
      rw [List.reverse_eq_nil_iff] at h
      exact hA h
    · intro c hc
      rw [List.mem_reverse] at hc
      exact natDigits_all_digits s c hc

theorem formatRow_strip (d : ℕ) (i j k : ℕ) (v : ℚ × ℚ × ℚ) :
    pyStrip (formatRow d (i : ℤ) (j : ℤ) (k : ℤ) v) =
      formatRow d (i : ℤ) (j : ℤ) (k : ℤ) v := by
  unfold formatRow
  rw [intDigits_natCast, intDigits_natCast, intDigits_natCast]
  have hj : joinTokens [natDigits i, natDigits j, natDigits k,
      formatFixed d v.1, formatFixed d v.2.1, formatFixed d v.2.2] =
      natDigits i ++ ' ' :: (natDigits j ++ ' ' :: (natDigits k ++ ' ' ::
        (formatFixed d v.1 ++ ' ' :: (formatFixed d v.2.1 ++ ' ' ::
          formatFixed d v.2.2)))) := rfl
  rw [hj]
  apply pyStrip_eq_self
  · rw [headD_append_left _ _ (natDigits_ne_nil i)]
    exact isDigitC_not_space (headD_all (natDigits_ne_nil i)
      (natDigits_all_digits i) 'x')
  · rw [rev_headD_sep _ _ _ (by simp), rev_headD_sep _ _ _ (by simp),
      rev_headD_sep _ _ _ (by simp),
      rev_headD_sep _ _ _ (by simp [formatFixed_ne_nil]),
      rev_headD_sep _ _ _ (formatFixed_ne_nil d v.2.2)]
    exact isDigitC_not_space (formatFixed_rev_head d v.2.2 'x')

theorem dropWhile_append_singleton_ne_nil (p : Char → Bool) (a : List Char)
    (x : Char) (hx : p x = false) : (a ++ [x]).dropWhile p ≠ [] := by
  induction a with
  | nil => simp [List.dropWhile_cons, hx]
  | cons c t ih =>
    rw [List.cons_append, List.dropWhile_cons]
    by_cases hc : p c = true
    · rw [if_pos hc]
      exact ih
    · rw [if_neg hc]
      simp

theorem pyStrip_hash_ne_nil (r : List Char) : pyStrip ('#' :: r) ≠ [] := by
  unfold pyStrip
  rw [stripLeft_eq_self (by rw [List.headD_cons]; rfl)]
  rw [List.reverse_cons]
  intro h
  rw [List.reverse_eq_nil_iff] at h
  exact dropWhile_append_singleton_ne_nil pySpace r.reverse '#' rfl h

/-- The raw lines the SPI3D writer emits, in order. -/
def writeSPI3DLines (l : LUT3D) (decimals : ℕ) : List (List Char) :=
  ["SPILUT 1.0".data, "3 3".data,
    joinTokens [natDigits l.size, natDigits l.size, natDigits l.size]] ++
    ((expectedIndexes l.size).zip l.table).map
      (fun r => formatRow decimals r.1.1 r.1.2.1 r.1.2.2 r.2) ++
    l.comments.map (fun c => '#' :: ' ' :: c.data)

theorem writeSPI3DContent_eq (l : LUT3D) (d : ℕ) :
    writeSPI3DContent l d = joinLines (writeSPI3DLines l d) := rfl

theorem prepLines_writeSPI3D (l : LUT3D) (d : ℕ)
    (hcom : ∀ c ∈ l.comments,
      pyStrip c.data = c.data ∧ '\n' ∉ c.data ∧ '\r' ∉ c.data) :
    prepLines (writeSPI3DContent l d) =
      "SPILUT 1.0".data :: "3 3".data ::
        joinTokens [natDigits l.size, natDigits l.size, natDigits l.size] ::
        (((latticeN l.size).zip l.table).map
          (fun r => formatRow d (r.1.1 : ℤ) (r.1.2.1 : ℤ) (r.1.2.2 : ℤ) r.2) ++
          l.comments.map (fun c => pyStrip ('#' :: ' ' :: c.data))) := by
  have hzip : (expectedIndexes l.size).zip l.table =
      ((latticeN l.size).zip l.table).map
        (fun p => (((p.1.1 : ℤ), (p.1.2.1 : ℤ), (p.1.2.2 : ℤ)), p.2)) := by
    rw [expectedIndexes_eq_latticeN, List.zip_map_left]
    rfl
  have hrows : ((expectedIndexes l.size).zip l.table).map
      (fun r => formatRow d r.1.1 r.1.2.1 r.1.2.2 r.2) =
      ((latticeN l.size).zip l.table).map
        (fun r => formatRow d (r.1.1 : ℤ) (r.1.2.1 : ℤ) (r.1.2.2 : ℤ) r.2) := by
    rw [hzip, List.map_map]
    rfl
  have hnl : ∀ line ∈ writeSPI3DLines l d, '\n' ∉ line := by
    intro line hline
    unfold writeSPI3DLines at hline
    rw [hrows] at hline
    simp only [List.cons_append, List.nil_append, List.mem_cons,
      List.mem_append, List.mem_map] at hline
    rcases hline with rfl | rfl | rfl | ⟨⟨r, _, rfl⟩ | ⟨c, hc, rfl⟩⟩
    · decide
    · decide
    · exact sizeLine_no_nl l.size
    · exact formatRow_no_nl d r.1.1 r.1.2.1 r.1.2.2 r.2
    · intro hmem
      rcases List.mem_cons.mp hmem with h | h
      · exact absurd h.symm (by decide)
      · rcases List.mem_cons.mp h with h2 | h2
        · exact absurd h2.symm (by decide)
        · exact (hcom c hc).2.1 h2
  have hcr : '\r' ∉ joinLines (writeSPI3DLines l d) := by
    apply joinLines_no_cr
    intro line hline
    unfold writeSPI3DLines at hline
    rw [hrows] at hline
    simp only [List.cons_append, List.nil_append, List.mem_cons,
      List.mem_append, List.mem_map] at hline
    rcases hline with rfl | rfl | rfl | ⟨⟨r, _, rfl⟩ | ⟨c, hc, rfl⟩⟩
    · decide
    · decide
    · exact sizeLine_no_cr l.size
    · exact formatRow_no_cr d r.1.1 r.1.2.1 r.1.2.2 r.2
    · intro hmem
      rcases List.mem_cons.mp hmem with h | h
      · exact absurd h.symm (by decide)
      · rcases List.mem_cons.mp h with h2 | h2
        · exact absurd h2.symm (by decide)
        · exact (hcom c hc).2.2 h2
  rw [writeSPI3DContent_eq]
  unfold prepLines
  rw [show translateNewlines (joinLines (writeSPI3DLines l d)) =
    joinLines (writeSPI3DLines l d) from translateNewlines_eq_self hcr]
  rw [splitLines_joinLines _ hnl]
  rw [List.map_append]
  rw [List.filter_append]
  have hlast : (List.map pyStrip [[]]).filter (fun u => !u.isEmpty) = [] := rfl
  rw [hlast, List.append_nil]
  have hmap : List.map pyStrip (writeSPI3DLines l d) =
      "SPILUT 1.0".data :: "3 3".data ::
        joinTokens [natDigits l.size, natDigits l.size, natDigits l.size] ::
        (((latticeN l.size).zip l.table).map
          (fun r => formatRow d (r.1.1 : ℤ) (r.1.2.1 : ℤ) (r.1.2.2 : ℤ) r.2) ++
          l.comments.map (fun c => pyStrip ('#' :: ' ' :: c.data))) := by
    unfold writeSPI3DLines
    rw [hrows]
    simp only [List.cons_append, List.nil_append, List.map_cons, List.map_append,
      List.map_map]
    rw [show pyStrip "SPILUT 1.0".data = "SPILUT 1.0".data from by decide]
    rw [show pyStrip "3 3".data = "3 3".data from by decide]
    rw [sizeLine_strip]
    have hR : List.map
        (pyStrip ∘ fun r : (ℕ × ℕ × ℕ) × ℚ × ℚ × ℚ =>
          formatRow d (r.1.1 : ℤ) (r.1.2.1 : ℤ) (r.1.2.2 : ℤ) r.2)
        ((latticeN l.size).zip l.table) =
        List.map (fun r : (ℕ × ℕ × ℕ) × ℚ × ℚ × ℚ =>
          formatRow d (r.1.1 : ℤ) (r.1.2.1 : ℤ) (r.1.2.2 : ℤ) r.2)
        ((latticeN l.size).zip l.table) :=
      List.map_congr_left fun r _ =>
        formatRow_strip d r.1.1 r.1.2.1 r.1.2.2 r.2
    have hC : List.map (pyStrip ∘ fun c : String => '#' :: ' ' :: c.data)
        l.comments =
        List.map (fun c : String => pyStrip ('#' :: ' ' :: c.data)) l.comments :=
      List.map_congr_left fun c _ => rfl
    rw [hR, hC]
  rw [hmap]
  rw [List.filter_eq_self.mpr]
  intro line hline
  simp only [List.mem_cons, List.mem_append, List.mem_map] at hline
  rcases hline with rfl | rfl | rfl | ⟨⟨r, _, rfl⟩ | ⟨c, _, rfl⟩⟩
  · decide
  · decide
  · show (!(joinTokens [natDigits l.size, natDigits l.size,
      natDigits l.size]).isEmpty) = true
    rw [show joinTokens [natDigits l.size, natDigits l.size, natDigits l.size] =
      natDigits l.size ++ ' ' :: (natDigits l.size ++ ' ' :: natDigits l.size)
      from rfl]
    simp
  · show (!(formatRow d (r.1.1 : ℤ) (r.1.2.1 : ℤ) (r.1.2.2 : ℤ) r.2).isEmpty) = true
    rw [show formatRow d (r.1.1 : ℤ) (r.1.2.1 : ℤ) (r.1.2.2 : ℤ) r.2 =
      intDigits (r.1.1 : ℤ) ++ ' ' :: joinTokens [intDigits (r.1.2.1 : ℤ),
        intDigits (r.1.2.2 : ℤ), formatFixed d r.2.1, formatFixed d r.2.2.1,
        formatFixed d r.2.2.2] from rfl]
    simp
  · have h := pyStrip_hash_ne_nil (' ' :: c.data)
    simpa using h

/-! ## The round trip -/

theorem readSPI3D_of_write (l : LUT3D) (path : String) (d : ℕ)
    (hlen : l.table.length = l.size ^ 3)
    (hcom : ∀ c ∈ l.comments,
      pyStrip c.data = c.data ∧ '\n' ∉ c.data ∧ '\r' ∉ c.data) :
    read_LUT_SonySPI3D path (String.mk (writeSPI3DContent l d)) =
      .ok { name := path_to_title path,
            domain := [[0, 0, 0], [1, 1, 1]],
            size := l.size,
            table := l.table.map (roundTriple d),
            comments := l.comments } := by
  have hscan : scanLines ⟨2, [], [], []⟩
      (prepLines (String.mk (writeSPI3DContent l d)).data) =
      .ok ⟨(l.size : ℤ),
        ((latticeN l.size).zip l.table).map
          (fun p => ((p.1.1 : ℚ), (p.1.2.1 : ℚ), (p.1.2.2 : ℚ))),
        ((latticeN l.size).zip l.table).map (fun p => roundTriple d p.2),
        l.comments⟩ := by
    rw [show (String.mk (writeSPI3DContent l d)).data = writeSPI3DContent l d
      from rfl]
    rw [prepLines_writeSPI3D l d hcom]
    rw [show ("SPILUT 1.0".data : List Char) =
      ['S', 'P', 'I', 'L', 'U', 'T', ' ', '1', '.', '0'] from rfl]
    rw [show ("3 3".data : List Char) = ['3', ' ', '3'] from rfl]
    rw [scanLines_cons_ok (processLine_header1 _),
      scanLines_cons_ok (processLine_header2 _),
      scanLines_cons_ok (processLine_sizeLine _ l.size),
      scanLines_append_ok (scanLines_rows d ((latticeN l.size).zip l.table) _),
      scanLines_comments l.comments _ (fun c hc => (hcom c hc).1)]
    simp
  rw [read_LUT_SonySPI3D_of_scan hscan]
  unfold spi3dFinish
  dsimp only
  rw [if_neg (Int.natCast_nonneg l.size).not_lt]
  have hlat : (latticeN l.size).length = l.table.length := by
    rw [latticeN_length, hlen]
  have hidx : ((latticeN l.size).zip l.table).map
      (fun p => ((p.1.1 : ℚ), (p.1.2.1 : ℚ), (p.1.2.2 : ℚ))) =
      expectedIndexesQ (l.size : ℤ).toNat := by
    rw [Int.toNat_natCast]
    have hfst : ((latticeN l.size).zip l.table).map Prod.fst = latticeN l.size :=
      List.map_fst_zip _ _ (le_of_eq hlat)
    have e1 : ((latticeN l.size).zip l.table).map
        (fun p => ((p.1.1 : ℚ), (p.1.2.1 : ℚ), (p.1.2.2 : ℚ))) =
        (((latticeN l.size).zip l.table).map Prod.fst).map
          (fun v => ((v.1 : ℚ), (v.2.1 : ℚ), (v.2.2 : ℚ))) := by
      rw [List.map_map]
      rfl
    have e2 : expectedIndexesQ l.size = (latticeN l.size).map
        (fun v => ((v.1 : ℚ), (v.2.1 : ℚ), (v.2.2 : ℚ))) := by
      rw [expectedIndexesQ, expectedIndexes_eq_latticeN, List.map_map]
      refine List.map_congr_left fun v _ => ?_
      simp only [Function.comp_apply]
      push_cast
      rfl
    rw [e1, hfst, e2]
  rw [if_pos hidx]
  have htbl : (((latticeN l.size).zip l.table).map
      (fun p => roundTriple d p.2)).length = (l.size : ℤ).toNat ^ 3 := by
    rw [List.length_map, List.length_zip, latticeN_length, hlen,
      Int.toNat_natCast, Nat.min_self]
  rw [if_pos htbl]
  have hsnd : ((latticeN l.size).zip l.table).map Prod.snd = l.table :=
    List.map_snd_zip _ _ (ge_of_eq hlat)
  have htbl2 : ((latticeN l.size).zip l.table).map (fun p => roundTriple d p.2) =
      l.table.map (roundTriple d) := by
    have e1 : ((latticeN l.size).zip l.table).map (fun p => roundTriple d p.2) =
        (((latticeN l.size).zip l.table).map Prod.snd).map (roundTriple d) := by
      rw [List.map_map]
      rfl
    rw [e1, hsnd]
  rw [htbl2, Int.toNat_natCast]

/-! ## Error paths of the reader -/

theorem scanLines_cons_err {st : SpiScanState} {line : List Char}
    {ls : List (List Char)} {e : PyError} (h : processLine st line = .error e) :
    scanLines st (line :: ls) = .error e := by
  show (match processLine st line with
    | .ok s => scanLines s ls
    | .error e => .error e) = _
  rw [h]

theorem read_LUT_SonySPI3D_of_scan_err {path content : String} {e : PyError}
    (h : scanLines ⟨2, [], [], []⟩ (prepLines content.data) = .error e) :
    read_LUT_SonySPI3D path content = .error e := by
  unfold read_LUT_SonySPI3D
  rw [h]

theorem processLine_nonuniform (st : SpiScanState) (line : List Char)
    (hhead : line.headD ' ' ≠ '#')
    (h3 : (pySplit line).length = 3)
    (hne : ¬ ((pySplit line).all
      (fun t => t = (pySplit line).headD []) = true)) :
    processLine st line = .error (.assertionError nonUniformMsg) := by
  simp only [processLine]
  rw [if_neg hhead, if_pos h3, if_neg hne]

/-- Any file whose prepared lines reach a non-comment line with three
distinct tokens fails with the non-uniform-shape assertion, whatever
follows that line. -/
theorem spi3d_scan_nonuniform (path content : String)
    (pre post : List (List Char)) (line : List Char) (st : SpiScanState)
    (hsplit : prepLines content.data = pre ++ line :: post)
    (hpre : scanLines ⟨2, [], [], []⟩ pre = .ok st)
    (hhead : line.headD ' ' ≠ '#')
    (h3 : (pySplit line).length = 3)
    (hne : ¬ ((pySplit line).all
      (fun t => t = (pySplit line).headD []) = true)) :
    read_LUT_SonySPI3D path content = .error (.assertionError nonUniformMsg) := by
  apply read_LUT_SonySPI3D_of_scan_err
  rw [hsplit, scanLines_append_ok hpre,
    scanLines_cons_err (processLine_nonuniform st line hhead h3 hne)]

/-- A small format-valid `LUT3D` with well-behaved comments. -/
def roundtripWitnessLUT : LUT3D :=
  { name := "My LUT", domain := unitDomain, size := 2,
    table := [(0, 0, 0), (0, 0, 1), (0, 1, 0), (0, 1, 1),
      (1, 0, 0), (1, 0, 1), (1, 1, 0), (1/3, 1/4, 1)],
    comments := ["A first comment.", "A second comment."] }

/-- **C2** (confirmed). The reader reconstructs the expected index lattice
as `linear_table(size) * (size - 1)` cast to integers (`expectedIndexesQ`)
and succeeds only when the parsed index columns equal it, in the same row
order; any mismatch makes the whole read fail with the index assertion,
never a warning or a partial result. -/
theorem spi3d_index_lattice_guard (path content : String) (st : SpiScanState)
    (hscan : scanLines ⟨2, [], [], []⟩ (prepLines content.data) = .ok st) :
    (0 ≤ st.size → st.indexes ≠ expectedIndexesQ st.size.toNat →
      read_LUT_SonySPI3D path content = .error (.assertionError indexesMsg)) ∧
    (∀ L, read_LUT_SonySPI3D path content = .ok L →
      st.indexes = expectedIndexesQ st.size.toNat) := by
  rw [read_LUT_SonySPI3D_of_scan hscan]
  unfold spi3dFinish
  constructor
  · intro h0 hne
    rw [if_neg (by omega), if_neg hne]
  · intro L hL
    by_cases hsz : st.size < 0
    · rw [if_pos hsz] at hL
      simp at hL
    · rw [if_neg hsz] at hL
      by_cases hidx : st.indexes = expectedIndexesQ st.size.toNat
      · exact hidx
      · rw [if_neg hidx] at hL
        simp at hL

/-- A SPI3D file of declared size 2 carrying a single data row, so its
index columns cannot match the expected 8-row lattice. -/
def mismatchContent : String := "SPILUT 1.0\n3 3\n2 2 2\n0 0 0 0.1 0.1 0.1\n"

/-- The scan state `mismatchContent` produces. -/
def mismatchState : SpiScanState :=
  ⟨2, [(0, 0, 0)], [(mkRat 1 10, mkRat 1 10, mkRat 1 10)], []⟩

/-- Witness for **C2**: the mismatching file fails with the index
assertion. -/
theorem spi3d_index_lattice_guard_witness :
    read_LUT_SonySPI3D "My_LUT.spi3d" mismatchContent =
      .error (.assertionError indexesMsg) :=
  (spi3d_index_lattice_guard "My_LUT.spi3d" mismatchContent mismatchState
    (by with_unfolding_all rfl)).1 (by decide)
    (of_decide_eq_false (by with_unfolding_all rfl))

/-- **C4** (confirmed). A file whose size line carries three non-equal
tokens fails with the non-uniform-shape assertion. The failure happens at
that line: nothing after it is looked at (the conclusion holds for every
`post`), and with no data row before it (`st.table = []`) no data row of
the file has been parsed; a non-uniform grid is a hard failure, not a
degraded mode. -/
theorem spi3d_nonuniform_size_rejected (path content : String)
    (pre post : List (List Char)) (line : List Char) (st : SpiScanState)
    (hsplit : prepLines content.data = pre ++ line :: post)
    (hpre : scanLines ⟨2, [], [], []⟩ pre = .ok st)
    (_hnorow : st.table = [])
    (hhead : line.headD ' ' ≠ '#')
    (h3 : (pySplit line).length = 3)
    (hne : ¬ ((pySplit line).all
      (fun t => t = (pySplit line).headD []) = true)) :
    read_LUT_SonySPI3D path content = .error (.assertionError nonUniformMsg) :=
  spi3d_scan_nonuniform path content pre post line st hsplit hpre hhead h3 hne

/-- A SPI3D file whose size line reads `4 4 5`. -/
def nonUniformContent : String := "SPILUT 1.0\n3 3\n4 4 5\n0 0 0 0.1 0.1 0.1\n"

/-- Witness for **C4**: the `4 4 5` size line is rejected before any data
row is parsed. -/
theorem spi3d_nonuniform_size_rejected_witness :
    read_LUT_SonySPI3D "My_LUT.spi3d" nonUniformContent =
      .error (.assertionError nonUniformMsg) :=
  spi3d_nonuniform_size_rejected "My_LUT.spi3d" nonUniformContent
    [['S', 'P', 'I', 'L', 'U', 'T', ' ', '1', '.', '0'], ['3', ' ', '3']]
    [['0', ' ', '0', ' ', '0', ' ', '0', '.', '1', ' ', '0', '.', '1', ' ',
      '0', '.', '1']]
    ['4', ' ', '4', ' ', '5'] ⟨2, [], [], []⟩
    (by decide) (by with_unfolding_all rfl) rfl (by decide) (by decide)
    (by decide)

/-- **C10** (confirmed). Grid uniformity is decided by string equality of
the three size-line tokens, not by numeric equality: a size line whose
three tokens all parse to the same number but are not all the same string
fails as a non-uniform grid. -/
theorem spi3d_size_tokens_string_compared (path content : String)
    (pre post : List (List Char)) (line : List Char) (st : SpiScanState)
    (a b c : List Char) (q : ℚ)
    (hsplit : prepLines content.data = pre ++ line :: post)
    (hpre : scanLines ⟨2, [], [], []⟩ pre = .ok st)
    (hhead : line.headD ' ' ≠ '#')
    (htok : pySplit line = [a, b, c])
    (_hnum : parse_array [a, b, c] = .ok [q, q, q])
    (hne : ¬ (b = a ∧ c = a)) :
    read_LUT_SonySPI3D path content = .error (.assertionError nonUniformMsg) := by
  refine spi3d_scan_nonuniform path content pre post line st hsplit hpre hhead
    (by rw [htok]; rfl) ?_
  rw [htok]
  simp only [List.all_cons, List.all_nil, List.headD_cons, Bool.and_eq_true,
    decide_eq_true_eq, and_true]
  intro h
  exact hne ⟨h.2.1, h.2.2⟩

/-- A SPI3D file whose size line reads `4 4 04`: numerically equal tokens,
textually distinct. -/
def paddedSizeContent : String := "SPILUT 1.0\n3 3\n4 4 04\n"

/-- Witness for **C10**: `4 4 04` is rejected as a non-uniform grid even
though all three tokens parse to the number 4. -/
theorem spi3d_size_tokens_string_compared_witness :
    read_LUT_SonySPI3D "My_LUT.spi3d" paddedSizeContent =
      .error (.assertionError nonUniformMsg) :=
  spi3d_size_tokens_string_compared "My_LUT.spi3d" paddedSizeContent
    [['S', 'P', 'I', 'L', 'U', 'T', ' ', '1', '.', '0'], ['3', ' ', '3']] []
    ['4', ' ', '4', ' ', '0', '4'] ⟨2, [], [], []⟩
    ['4'] ['4'] ['0', '4'] 4
    (by decide) (by with_unfolding_all rfl) (by decide) (by decide)
    (by with_unfolding_all rfl) (by decide)

/-- **C9** (confirmed). Every successful `read_LUT_SonySPI3D` returns a
`LUT3D` whose domain is exactly `[[0, 0, 0], [1, 1, 1]]` and whose name is
derived from the file path, whatever the file's contents: the SPI3D reader
never takes domain or title from the file. -/
theorem spi3d_read_domain_and_title (path content : String) (L : LUT3D)
    (h : read_LUT_SonySPI3D path content = .ok L) :
    L.domain = [[0, 0, 0], [1, 1, 1]] ∧ L.name = path_to_title path := by
  cases hscan : scanLines ⟨2, [], [], []⟩ (prepLines content.data) with
  | error e =>
    rw [read_LUT_SonySPI3D_of_scan_err hscan] at h
    simp at h
  | ok st =>
    rw [read_LUT_SonySPI3D_of_scan hscan] at h
    unfold spi3dFinish at h
    split_ifs at h
    all_goals
      simp only [Except.ok.injEq] at h
    all_goals
      subst h
    all_goals
      exact ⟨rfl, rfl⟩

/-- A well-formed 2x2x2 SPI3D file. -/
def goodContent : String :=
  String.mk (writeSPI3DContent roundtripWitnessLUT 7)

/-- Witness for **C9**: reading a concrete file yields the unit domain and
the title derived from the path, not from the file. -/
theorem spi3d_read_domain_and_title_witness :
    read_LUT_SonySPI3D "dir/Colour_Correct.spi3d" goodContent =
      .ok { name := "Colour Correct", domain := [[0, 0, 0], [1, 1, 1]],
            size := 2, table := roundtripWitnessLUT.table.map (roundTriple 7),
            comments := roundtripWitnessLUT.comments } ∧
    ({ name := "Colour Correct", domain := [[0, 0, 0], [1, 1, 1]],
       size := 2, table := roundtripWitnessLUT.table.map (roundTriple 7),
       comments := roundtripWitnessLUT.comments } : LUT3D).domain =
      [[0, 0, 0], [1, 1, 1]] ∧
    ({ name := "Colour Correct", domain := [[0, 0, 0], [1, 1, 1]],
       size := 2, table := roundtripWitnessLUT.table.map (roundTriple 7),
       comments := roundtripWitnessLUT.comments } : LUT3D).name =
      path_to_title "dir/Colour_Correct.spi3d" := by
  have h : read_LUT_SonySPI3D "dir/Colour_Correct.spi3d" goodContent =
      .ok { name := "Colour Correct", domain := [[0, 0, 0], [1, 1, 1]],
            size := 2, table := roundtripWitnessLUT.table.map (roundTriple 7),
            comments := roundtripWitnessLUT.comments } := by
    have := readSPI3D_of_write roundtripWitnessLUT "dir/Colour_Correct.spi3d" 7
      (by decide) (by decide)
    rw [show path_to_title "dir/Colour_Correct.spi3d" = "Colour Correct"
      from by decide] at this
    exact this
  exact ⟨h, (spi3d_read_domain_and_title _ _ _ h).1,
    (spi3d_read_domain_and_title _ _ _ h).2⟩

/-- **C5** (confirmed). `write_LUT_SonySPI3D` fails on one of its domain
assertions, writing nothing (the outcome carries no file content and no
write happens before the assertions), whenever the given `LUT3D` violates a
format-mandated constraint: its domain is explicit, or its domain is not
exactly `[[0, 0, 0], [1, 1, 1]]`. -/
theorem spi3d_write_domain_invariants (l : LUT3D) (d : ℕ)
    (h : (TableU.l3 l).is_domain_explicit = true ∨ l.domain ≠ unitDomain) :
    ∃ msg, write_LUT_SonySPI3D (.table (.l3 l)) d =
        ([], .error (.assertionError msg)) ∧
      (msg = implicitDomainMsg ∨ msg = unitDomainMsg) := by
  by_cases hexp : (TableU.l3 l).is_domain_explicit = true
  · refine ⟨implicitDomainMsg, ?_, Or.inl rfl⟩
    show ([], writeSPI3DChecked (.l3 l) d) = _
    unfold writeSPI3DChecked
    rw [if_pos hexp]
  · have hexp2 : (TableU.l3 l).is_domain_explicit = false :=
      Bool.not_eq_true _ ▸ eq_false_of_ne_true hexp
    have hd : l.domain ≠ unitDomain := by
      rcases h with h | h
      · exact absurd h hexp
      · exact h
    refine ⟨unitDomainMsg, ?_, Or.inr rfl⟩
    show ([], writeSPI3DChecked (.l3 l) d) = _
    simp only [writeSPI3DChecked, hexp2, Bool.false_eq_true, if_false]
    rw [if_neg hd]

/-- A `LUT3D` with an explicit (single-row) domain. -/
def explicitDomainLUT3D : LUT3D :=
  { name := "x", domain := [[0, 0, 0]], size := 2,
    table := List.replicate 8 (0, 0, 0), comments := [] }

/-- Witness for **C5**: writing an explicit-domain `LUT3D` fails on a
domain assertion. -/
theorem spi3d_write_domain_invariants_witness :
    ∃ msg, write_LUT_SonySPI3D (.table (.l3 explicitDomainLUT3D)) 7 =
        ([], .error (.assertionError msg)) ∧
      (msg = implicitDomainMsg ∨ msg = unitDomainMsg) :=
  spi3d_write_domain_invariants explicitDomainLUT3D 7 (Or.inl (by decide))

/-- A `LUT1D` with an explicit (three-row) domain. -/
def explicitDomainLUT1D : LUT1D :=
  { name := "ramp", domain := [[0], [1], [2]], size := 3,
    table := [0, 1, 2], comments := [] }

/-- **C6**, counterexample to the claim as stated: a 1D table with an
explicit domain is rejected by the implicit-domain assertion, which runs
before the variant check, so the failure is not the `TypeError`-class
variant message the claim promises for every non-`LUT3D` value. -/
theorem spi3d_write_typeerror_counterexample :
    write_LUT_SonySPI3D (.table (.l1 explicitDomainLUT1D)) 7 =
      ([], .error (.assertionError implicitDomainMsg)) ∧
    implicitDomainMsg ≠ lut3dOnlyMsg :=
  ⟨by with_unfolding_all rfl, by decide⟩

/-- **C6**, amended. `write_LUT_SonySPI3D` fails with the
`TypeError`-class message `lut3dOnlyMsg`, writing nothing, whenever the
value is a table variant other than `LUT3D` whose domain is implicit; with
an explicit domain the implicit-domain assertion fires first, as it
precedes the variant check in the source. -/
theorem spi3d_write_requires_LUT3D (t : LUT1D) (d : ℕ)
    (himp : (TableU.l1 t).is_domain_explicit = false) :
    write_LUT_SonySPI3D (.table (.l1 t)) d =
      ([], .error (.assertionError lut3dOnlyMsg)) := by
  show ([], writeSPI3DChecked (.l1 t) d) = _
  simp only [writeSPI3DChecked, himp, Bool.false_eq_true, if_false]

/-- A `LUT1D` with an implicit (two-row) domain. -/
def implicitDomainLUT1D : LUT1D :=
  { name := "ramp", domain := [[0], [1]], size := 2,
    table := [0, 1], comments := [] }

/-- Witness for **C6**: an implicit-domain 1D table is rejected with the
variant message. -/
theorem spi3d_write_requires_LUT3D_witness :
    write_LUT_SonySPI3D (.table (.l1 implicitDomainLUT1D)) 7 =
      ([], .error (.assertionError lut3dOnlyMsg)) :=
  spi3d_write_requires_LUT3D implicitDomainLUT1D 7 (by decide)

/-- **C8** (confirmed). A `LUTSequence` passed to `write_LUT_SonySPI3D`
is narrowed to its first element with the advisory `usage_warning` naming
the substitution in the warning list of the outcome; the call is not
aborted — its result is exactly the result of writing the first element —
so the condition is observable and never silently swallowed. -/
theorem spi3d_write_sequence_advisory (t : TableU) (ts : List TableU) (d : ℕ) :
    write_LUT_SonySPI3D (.sequence (t :: ts)) d =
      ([seqUsageWarning], (write_LUT_SonySPI3D (.table t) d).2) := rfl

/-! ## Dispatch layer behaviour -/

theorem read_LUT_none_resolved {fs : String → String} {path m : String}
    (hext : EXTENSION_TO_LUT_FORMAT_MAPPING (splitext_ext path) = some m) :
    read_LUT fs path none = read_LUT fs path (some m) := by
  unfold read_LUT
  rw [hext]

theorem read_LUT_some_eq {fs : String → String} {path m : String}
    {f : String → String → Except PyError ReadResult}
    (hreg : LUT_READ_METHODS m = some f) :
    read_LUT fs path (some m) =
      match f path (fs path) with
      | .ok r => .ok r
      | .error (.valueError msg) =>
        if m = "Iridas Cube" then read_LUT_ResolveCube path (fs path)
        else .error (.valueError msg)
      | .error e => .error e := by
  show (match LUT_READ_METHODS m with
    | none => Except.error (PyError.keyError m)
    | some f =>
      match f path (fs path) with
      | Except.ok r => Except.ok r
      | Except.error (PyError.valueError msg) =>
        if m = "Iridas Cube" then read_LUT_ResolveCube path (fs path)
        else Except.error (PyError.valueError msg)
      | Except.error e => Except.error e) = _
  rw [hreg]

theorem read_LUT_iridas_valueError_retries (fs : String → String)
    (path msg : String)
    (hext : EXTENSION_TO_LUT_FORMAT_MAPPING (splitext_ext path) =
      some "Iridas Cube")
    (herr : read_LUT_IridasCube path (fs path) = .error (.valueError msg)) :
    read_LUT fs path none = read_LUT_ResolveCube path (fs path) := by
  rw [read_LUT_none_resolved hext,
    read_LUT_some_eq (show LUT_READ_METHODS "Iridas Cube" =
      some read_LUT_IridasCube from rfl), herr]
  rfl

theorem read_LUT_other_method_propagates (fs : String → String)
    (path m : String) (f : String → String → Except PyError ReadResult)
    (e : PyError)
    (hext : EXTENSION_TO_LUT_FORMAT_MAPPING (splitext_ext path) = some m)
    (hm : m ≠ "Iridas Cube")
    (hreg : LUT_READ_METHODS m = some f)
    (herr : f path (fs path) = .error e) :
    read_LUT fs path none = .error e := by
  cases e with
  | valueError msg =>
    rw [read_LUT_none_resolved hext, read_LUT_some_eq hreg, herr]
    show (if m = "Iridas Cube" then read_LUT_ResolveCube path (fs path)
      else Except.error (PyError.valueError msg)) = _
    rw [if_neg hm]
  | assertionError msg =>
    rw [read_LUT_none_resolved hext, read_LUT_some_eq hreg, herr]
  | keyError msg =>
    rw [read_LUT_none_resolved hext, read_LUT_some_eq hreg, herr]
  | typeError msg =>
    rw [read_LUT_none_resolved hext, read_LUT_some_eq hreg, herr]
  | indexError msg =>
    rw [read_LUT_none_resolved hext, read_LUT_some_eq hreg, herr]

theorem read_LUT_shaper_cube (fs : String → String) (path : String)
    (hext : lowerStr (splitext_ext path) = ".cube")
    (h1 : hasKeyword "LUT_1D_SIZE" (fs path) = true)
    (h3 : hasKeyword "LUT_3D_SIZE" (fs path) = true) :
    read_LUT fs path none =
      .ok (.sequence [.l1 (shaperStub path), .l3 (cubeStub path)]) := by
  have hextm : EXTENSION_TO_LUT_FORMAT_MAPPING (splitext_ext path) =
      some "Iridas Cube" := by
    unfold EXTENSION_TO_LUT_FORMAT_MAPPING
    rw [hext]
    decide
  have herr : read_LUT_IridasCube path (fs path) =
      .error (.valueError "single-stage Iridas Cube LUT with two size keywords") := by
    unfold read_LUT_IridasCube
    rw [h1, h3]
    rfl
  have hres : read_LUT_ResolveCube path (fs path) =
      .ok (.sequence [.l1 (shaperStub path), .l3 (cubeStub path)]) := by
    unfold read_LUT_ResolveCube
    rw [h1, h3]
    rfl
  rw [read_LUT_iridas_valueError_retries fs path _ hextm herr, hres]

/-- **C3** (confirmed). With `method` omitted, the method resolves from the
path's extension; when it resolves to `'Iridas Cube'` and the codec call
fails with a `ValueError` (the spec's `ParseError` class), the dispatch
layer retries exactly once through the `'Resolve Cube'` codec — the call
becomes that single retry invocation — and for any other resolved method
the error propagates unchanged with no retry. In particular, a `.cube` file
holding a shaper-plus-cube body read with `method = none` succeeds and
returns a `LUTSequence`. -/
theorem read_LUT_iridas_resolve_fallback :
    (∀ (fs : String → String) (path msg : String),
      EXTENSION_TO_LUT_FORMAT_MAPPING (splitext_ext path) =
        some "Iridas Cube" →
      read_LUT_IridasCube path (fs path) = .error (.valueError msg) →
      read_LUT fs path none = read_LUT_ResolveCube path (fs path)) ∧
    (∀ (fs : String → String) (path m : String)
      (f : String → String → Except PyError ReadResult) (e : PyError),
      EXTENSION_TO_LUT_FORMAT_MAPPING (splitext_ext path) = some m →
      m ≠ "Iridas Cube" →
      LUT_READ_METHODS m = some f →
      f path (fs path) = .error e →
      read_LUT fs path none = .error e) ∧
    (∀ (fs : String → String) (path : String),
      lowerStr (splitext_ext path) = ".cube" →
      hasKeyword "LUT_1D_SIZE" (fs path) = true →
      hasKeyword "LUT_3D_SIZE" (fs path) = true →
      read_LUT fs path none =
        .ok (.sequence [.l1 (shaperStub path), .l3 (cubeStub path)])) :=
  ⟨read_LUT_iridas_valueError_retries, read_LUT_other_method_propagates,
    read_LUT_shaper_cube⟩

/-- The text of a Resolve-style Cube file holding a shaper stage next to a
cube stage. -/
def shaperCubeContent : String :=
  "LUT_1D_SIZE 2\n0.0 0.0 0.0\n1.0 1.0 1.0\nLUT_3D_SIZE 2\n"

/-- Witness for **C3**: the shaper-plus-cube `.cube` file, read with
`method = none`, returns a `LUTSequence` through the retry. -/
theorem read_LUT_iridas_resolve_fallback_witness :
    read_LUT (fun _ => shaperCubeContent) "a.cube" none =
      .ok (.sequence [.l1 (shaperStub "a.cube"), .l3 (cubeStub "a.cube")]) :=
  read_LUT_iridas_resolve_fallback.2.2 (fun _ => shaperCubeContent) "a.cube"
    (by decide) (by decide) (by decide)

theorem write_LUT_of_resolved {v : PyLUT} {path m : String} {d : ℕ}
    {method : Option String}
    {f : PyLUT → String → ℕ → List String × Except PyError String}
    (h1 : write_LUT_resolved_method v path method = .ok m)
    (h2 : LUT_WRITE_METHODS m = some f) :
    write_LUT v path d method = f v path d := by
  unfold write_LUT
  rw [h1]
  show (match LUT_WRITE_METHODS m with
    | none => (([] : List String), Except.error (PyError.keyError m))
    | some f => f v path d) = f v path d
  rw [h2]

/-- **C7** (confirmed). In `write_LUT` with `method` omitted, when the
extension resolves to `'Iridas Cube'` and the value being written is a
`LUTSequence`, the method is silently upgraded to `'Resolve Cube'` before
delegating to that codec; for any other resolved method, or a non-sequence
value, the resolved method is used unchanged. -/
theorem write_LUT_sequence_upgrade :
    (∀ (v : PyLUT) (path : String),
      EXTENSION_TO_LUT_FORMAT_MAPPING (splitext_ext path) =
        some "Iridas Cube" →
      v.isSeq = true →
      write_LUT_resolved_method v path none = .ok "Resolve Cube" ∧
      ∀ d, write_LUT v path d none = write_LUT_ResolveCube v path d) ∧
    (∀ (v : PyLUT) (path m0 : String),
      EXTENSION_TO_LUT_FORMAT_MAPPING (splitext_ext path) = some m0 →
      ¬ (m0 = "Iridas Cube" ∧ v.isSeq = true) →
      write_LUT_resolved_method v path none = .ok m0) := by
  constructor
  · intro v path hext hseq
    have hres : write_LUT_resolved_method v path none = .ok "Resolve Cube" := by
      unfold write_LUT_resolved_method
      rw [hext, hseq]
      rfl
    exact ⟨hres, fun d => write_LUT_of_resolved hres rfl⟩
  · intro v path m0 hext hne
    unfold write_LUT_resolved_method
    rw [hext]
    have hc : (decide (m0 = "Iridas Cube") && v.isSeq) = false := by
      rcases Bool.eq_false_or_eq_true v.isSeq with hs | hs
      · have hm : m0 ≠ "Iridas Cube" := fun h => hne ⟨h, hs⟩
        simp [hm]
      · simp [hs]
    simp [hc]

/-- A `LUTSequence` value for the write dispatch. -/
def seqValue : PyLUT := .sequence [.l1 implicitDomainLUT1D]

/-- Witness for **C7**: writing a `LUTSequence` to a `.cube` path with
`method = none` upgrades the method and delegates to the Resolve Cube
writer. -/
theorem write_LUT_sequence_upgrade_witness :
    write_LUT_resolved_method seqValue "My_LUT.cube" none =
      .ok "Resolve Cube" ∧
    write_LUT seqValue "My_LUT.cube" 7 none =
      write_LUT_ResolveCube seqValue "My_LUT.cube" 7 := by
  have h := write_LUT_sequence_upgrade.1 seqValue "My_LUT.cube"
    (by decide) (by decide)
  exact ⟨h.1, h.2 7⟩

end ColourSpec









